import Mathlib

/-!
# Verification of the bytetrack-rs tracking core

A shallow embedding of the tracking core of the `bytetrack-rs` repository
(`src/tracker/{rect,track_state,kalman_filter,strack,matching,byte_tracker}.rs`)
together with proofs of the specification claims about it.

Modelling conventions:
* `f32` / `f64` values are modelled as `ℚ` (the claims under scrutiny concern
  control flow, set membership and exact comparisons, not rounding).
* The global atomic track-id counter (`TRACK_ID_COUNTER` in `strack.rs`) is
  threaded through the functions that touch it as an explicit `ℕ` state.
* The external `lapjv` crate (the only non-repository code reached by the
  tracking core) is modelled as an oracle parameter: a function that receives
  the padded square cost matrix and returns either a row-to-column assignment
  or an error, exactly the shape of `lapjv::lapjv`.  Theorems quantify over
  all oracles (adding the crate's permutation contract as a hypothesis where
  a property genuinely needs it).
* Rust `u32`/`u64` arithmetic appears only as subtraction of frame counters
  and is modelled with truncated `ℕ` subtraction.
-/

set_option maxRecDepth 4000
set_option maxHeartbeats 1000000

/-! ## track_state.rs -/

/-- Track state enumeration (`TrackState` in `track_state.rs`). -/
inductive TrackState where
  | New
  | Tracked
  | Lost
  | Removed
deriving DecidableEq, Repr, Inhabited

/-! ## rect.rs -/

/-- Axis-aligned bounding box in TLWH storage (`Rect` in `rect.rs`). -/
structure Rect where
  x : ℚ
  y : ℚ
  width : ℚ
  height : ℚ
deriving DecidableEq, Repr

instance : Inhabited Rect := ⟨⟨0, 0, 0, 0⟩⟩

namespace Rect

/-- Embeds `Rect::new`. -/
def new (x y width height : ℚ) : Rect := ⟨x, y, width, height⟩

/-- Embeds `Rect::from_tlbr`. -/
def from_tlbr (x1 y1 x2 y2 : ℚ) : Rect := ⟨x1, y1, x2 - x1, y2 - y1⟩

/-- Embeds `Rect::from_xyah`. -/
def from_xyah (cx cy aspect_ratio height : ℚ) : Rect :=
  let width := aspect_ratio * height
  ⟨cx - width / 2, cy - height / 2, width, height⟩

/-- Embeds `Rect::to_xyah`: `(center_x, center_y, aspect_ratio, height)`. -/
def to_xyah (r : Rect) : Fin 4 → ℚ :=
  let cx := r.x + r.width / 2
  let cy := r.y + r.height / 2
  let aspect_ratio := if 0 < r.height then r.width / r.height else 0
  ![cx, cy, aspect_ratio, r.height]

/-- Embeds `Rect::area`. -/
def area (r : Rect) : ℚ := r.width * r.height

/-- Embeds `Rect::iou`: clamped intersection over union, `0` when the union is
not positive. -/
def iou (a b : Rect) : ℚ :=
  let x1 := max a.x b.x
  let y1 := max a.y b.y
  let x2 := min (a.x + a.width) (b.x + b.width)
  let y2 := min (a.y + a.height) (b.y + b.height)
  let inter_width := max (x2 - x1) 0
  let inter_height := max (y2 - y1) 0
  let inter_area := inter_width * inter_height
  let union_area := a.area + b.area - inter_area
  if 0 < union_area then inter_area / union_area else 0

/-- Two boxes are disjoint when they do not overlap on the x-axis or on the
y-axis. -/
def Disjoint (a b : Rect) : Prop :=
  a.x + a.width ≤ b.x ∨ b.x + b.width ≤ a.x ∨
  a.y + a.height ≤ b.y ∨ b.y + b.height ≤ a.y

end Rect

/-! ## kalman_filter.rs -/

/-- Constant-velocity Kalman filter (`KalmanFilter` in `kalman_filter.rs`). -/
structure KalmanFilter where
  motion_mat : Matrix (Fin 8) (Fin 8) ℚ
  update_mat : Matrix (Fin 4) (Fin 8) ℚ
  std_weight_position : ℚ
  std_weight_velocity : ℚ

namespace KalmanFilter

/-- Embeds `KalmanFilter::new`: identity motion matrix with the upper-right identity
block set, observation matrix selecting the first four components. -/
def new : KalmanFilter where
  motion_mat := Matrix.of fun i j =>
    if i.val = j.val then 1 else if j.val = i.val + 4 then 1 else 0
  update_mat := Matrix.of fun i j => if j.val = i.val then 1 else 0
  std_weight_position := 1 / 20
  std_weight_velocity := 1 / 160

instance : Inhabited KalmanFilter := ⟨new⟩

/-- Embeds `KalmanFilter::initiate`. -/
def initiate (kf : KalmanFilter) (measurement : Fin 4 → ℚ) :
    (Fin 8 → ℚ) × Matrix (Fin 8) (Fin 8) ℚ :=
  let mean : Fin 8 → ℚ := fun i =>
    if h : i.val < 4 then measurement ⟨i.val, h⟩ else 0
  let h := measurement 3
  let std : Fin 8 → ℚ :=
    ![2 * kf.std_weight_position * h, 2 * kf.std_weight_position * h, 1 / 100,
      2 * kf.std_weight_position * h, 10 * kf.std_weight_velocity * h,
      10 * kf.std_weight_velocity * h, 1 / 100000, 10 * kf.std_weight_velocity * h]
  (mean, Matrix.diagonal fun i => std i * std i)

/-- Embeds `KalmanFilter::predict`. -/
def predict (kf : KalmanFilter) (mean : Fin 8 → ℚ) (covariance : Matrix (Fin 8) (Fin 8) ℚ) :
    (Fin 8 → ℚ) × Matrix (Fin 8) (Fin 8) ℚ :=
  let h := mean 3
  let std : Fin 8 → ℚ :=
    ![kf.std_weight_position * h, kf.std_weight_position * h, 1 / 100,
      kf.std_weight_position * h, kf.std_weight_velocity * h,
      kf.std_weight_velocity * h, 1 / 100000, kf.std_weight_velocity * h]
  let motion_cov := Matrix.diagonal fun i => std i * std i
  (kf.motion_mat.mulVec mean,
   kf.motion_mat * covariance * kf.motion_mat.transpose + motion_cov)

/-- Embeds `KalmanFilter::project`. -/
def project (kf : KalmanFilter) (mean : Fin 8 → ℚ) (covariance : Matrix (Fin 8) (Fin 8) ℚ) :
    (Fin 4 → ℚ) × Matrix (Fin 4) (Fin 4) ℚ :=
  let h := mean 3
  let std : Fin 4 → ℚ :=
    ![kf.std_weight_position * h, kf.std_weight_position * h, 1 / 10,
      kf.std_weight_position * h]
  let innovation_cov := Matrix.diagonal fun i => std i * std i
  (kf.update_mat.mulVec mean,
   kf.update_mat * covariance * kf.update_mat.transpose + innovation_cov)

/-- Direct 4x4 inversion (`KalmanFilter::invert_4x4`, which delegates to
nalgebra's `try_inverse`; the `expect` panic on a singular matrix is
unreachable in this development and is modelled by the junk value the
formula yields when the determinant is zero). -/
def invert_4x4 (m : Matrix (Fin 4) (Fin 4) ℚ) : Matrix (Fin 4) (Fin 4) ℚ :=
  m.det⁻¹ • m.adjugate

/-- Embeds `KalmanFilter::update`: standard Kalman measurement update. -/
def update (kf : KalmanFilter) (mean : Fin 8 → ℚ) (covariance : Matrix (Fin 8) (Fin 8) ℚ)
    (measurement : Fin 4 → ℚ) : (Fin 8 → ℚ) × Matrix (Fin 8) (Fin 8) ℚ :=
  let pm := kf.project mean covariance
  let innovation : Fin 4 → ℚ := measurement - pm.1
  let s_inv := invert_4x4 pm.2
  let pht := covariance * kf.update_mat.transpose
  let kalman_gain := pht * s_inv
  (mean + kalman_gain.mulVec innovation,
   covariance - kalman_gain * pm.2 * kalman_gain.transpose)

end KalmanFilter

/-! ## strack.rs -/

/-- Single object track (`STrack` in `strack.rs`).  The `tlwh` field is the
original detection bounding box retained from construction. -/
structure STrack where
  track_id : ℕ
  state : TrackState
  is_activated : Bool
  score : ℚ
  frame_id : ℕ
  start_frame : ℕ
  tracklet_len : ℕ
  mean : Option (Fin 8 → ℚ)
  covariance : Option (Matrix (Fin 8) (Fin 8) ℚ)
  tlwh : Rect

instance : Inhabited STrack :=
  ⟨⟨0, TrackState.New, false, 0, 0, 0, 0, none, none, default⟩⟩

namespace STrack

/-- Embeds `STrack::new`: a fresh track from a detection box and score. -/
def new (tlwh : Rect) (score : ℚ) : STrack :=
  { track_id := 0
    state := TrackState.New
    is_activated := false
    score := score
    frame_id := 0
    start_frame := 0
    tracklet_len := 0
    mean := none
    covariance := none
    tlwh := tlwh }

/-- Embeds `STrack::tlwh`: the current bounding box, read back from the Kalman mean
when moments exist (named `current_tlwh` here because the Lean field `tlwh`
already carries the source's field name). -/
def current_tlwh (t : STrack) : Rect :=
  match t.mean with
  | some mean => Rect.from_xyah (mean 0) (mean 1) (mean 2) (mean 3)
  | none => t.tlwh

/-- Embeds `STrack::rect`. -/
def rect (t : STrack) : Rect := t.current_tlwh

/-- Embeds `STrack::end_frame`. -/
def end_frame (t : STrack) : ℕ := t.frame_id

/-- Embeds `STrack::activate`.  `next_track_id()` (global atomic counter) is modelled
by the explicit `counter` argument; the drawn id is `counter + 1` and the new
counter value is returned alongside the track. -/
def activate (t : STrack) (kf : KalmanFilter) (frame_id : ℕ) (counter : ℕ) :
    STrack × ℕ :=
  let xyah := t.tlwh.to_xyah
  let mc := kf.initiate xyah
  ({ t with
      track_id := counter + 1
      mean := some mc.1
      covariance := some mc.2
      tracklet_len := 0
      state := TrackState.Tracked
      is_activated := if frame_id = 1 then true else t.is_activated
      frame_id := frame_id
      start_frame := frame_id }, counter + 1)

/-- Embeds `STrack::re_activate`.  The global counter is threaded as in `activate`;
it is consumed only when `new_id` is true (the tracker core always passes
`false`). -/
def re_activate (t : STrack) (new_track : STrack) (kf : KalmanFilter)
    (frame_id : ℕ) (new_id : Bool) (counter : ℕ) : STrack × ℕ :=
  let xyah := new_track.tlwh.to_xyah
  let base :=
    match t.mean, t.covariance with
    | some m, some c =>
        let mc := kf.update m c xyah
        { t with mean := some mc.1, covariance := some mc.2 }
    | _, _ => t
  let t1 := { base with
      tracklet_len := 0
      state := TrackState.Tracked
      is_activated := true
      frame_id := frame_id
      score := new_track.score }
  if new_id then ({ t1 with track_id := counter + 1 }, counter + 1) else (t1, counter)

/-- Embeds `STrack::update`. -/
def update (t : STrack) (new_track : STrack) (kf : KalmanFilter) (frame_id : ℕ) :
    STrack :=
  let t0 := { t with frame_id := frame_id, tracklet_len := t.tracklet_len + 1 }
  let xyah := new_track.tlwh.to_xyah
  let t1 :=
    match t0.mean, t0.covariance with
    | some m, some c =>
        let mc := kf.update m c xyah
        { t0 with mean := some mc.1, covariance := some mc.2 }
    | _, _ => t0
  { t1 with state := TrackState.Tracked, is_activated := true, score := new_track.score }

/-- Embeds `STrack::predict`: one filter prediction; a non-`Tracked` track has the
height-velocity component (index 7) of its mean zeroed first. -/
def predict (t : STrack) (kf : KalmanFilter) : STrack :=
  match t.mean, t.covariance with
  | some mean, some cov =>
      let mean_to_predict :=
        if t.state ≠ TrackState.Tracked then Function.update mean 7 0 else mean
      let mc := kf.predict mean_to_predict cov
      { t with mean := some mc.1, covariance := some mc.2 }
  | _, _ => t

/-- Embeds `STrack::mark_lost`. -/
def mark_lost (t : STrack) : STrack := { t with state := TrackState.Lost }

/-- Embeds `STrack::mark_removed`. -/
def mark_removed (t : STrack) : STrack := { t with state := TrackState.Removed }

/-- Embeds `STrack::multi_predict`. -/
def multi_predict (stracks : List STrack) (kf : KalmanFilter) : List STrack :=
  stracks.map (fun t => t.predict kf)

end STrack

/-! ## matching.rs -/

/-- Detection input (`Detection` in `matching.rs`): a box plus a confidence
score. -/
structure Detection where
  bbox : Rect
  score : ℚ
deriving DecidableEq, Repr

instance : Inhabited Detection := ⟨⟨default, 0⟩⟩

namespace Detection

/-- Embeds `Detection::new` (TLBR input). -/
def new (x1 y1 x2 y2 score : ℚ) : Detection :=
  ⟨Rect.from_tlbr x1 y1 x2 y2, score⟩

/-- Embeds `Detection::from_rect`. -/
def from_rect (bbox : Rect) (score : ℚ) : Detection := ⟨bbox, score⟩

end Detection

/-- An `ndarray::Array2<f32>` cost matrix: explicit dimensions plus an entry
function. -/
structure Mat where
  rows : ℕ
  cols : ℕ
  entry : ℕ → ℕ → ℚ

/-- Embeds `iou_distance`: the `|A| x |B|` matrix of `1 - IoU`. -/
def iou_distance (track_boxes det_boxes : List Rect) : Mat :=
  ⟨track_boxes.length, det_boxes.length,
   fun i j => 1 - (track_boxes.getD i default).iou (det_boxes.getD j default)⟩

/-- Embeds `AssignmentResult` (`matches` is a Lean keyword, so that field is named
`matched_pairs` here). -/
structure AssignmentResult where
  matched_pairs : List (ℕ × ℕ)
  unmatched_tracks : List ℕ
  unmatched_detections : List ℕ

/-- The shape of the external `lapjv::lapjv` solver: it receives the padded
square cost matrix (side length and entries) and yields a row-to-column
assignment or an error.  The development is parametric in this oracle. -/
def SolverOracle : Type := ℕ → (ℕ → ℕ → ℚ) → Except Unit (List ℕ)

/-- Embeds `linear_assignment`: pad to square with the `1e6` sentinel, run the
solver, and accept a proposed pair `(i, j)` only when both indices are within
the original dimensions and `cost[i][j] <= thresh`.  The column mask that the
source keeps is rendered by filtering the matched columns out of
`range cols` at the end. -/
def linear_assignment (solver : SolverOracle) (cost_matrix : Mat) (thresh : ℚ) :
    AssignmentResult :=
  let num_rows := cost_matrix.rows
  let num_cols := cost_matrix.cols
  if num_rows = 0 then
    ⟨[], [], List.range num_cols⟩
  else if num_cols = 0 then
    ⟨[], List.range num_rows, []⟩
  else
    let size := max num_rows num_cols
    let padded : ℕ → ℕ → ℚ := fun i j =>
      if i < num_rows ∧ j < num_cols then cost_matrix.entry i j else 1000000
    match solver size padded with
    | Except.ok row_to_col =>
        let accepted := row_to_col.enum.filter fun p =>
          decide (p.1 < num_rows) && decide (p.2 < num_cols) &&
            decide (cost_matrix.entry p.1 p.2 ≤ thresh)
        let unmatched_tracks := (row_to_col.enum.filter fun p =>
          decide (p.1 < num_rows) &&
            (decide (num_cols ≤ p.2) || decide (thresh < cost_matrix.entry p.1 p.2))).map Prod.fst
        let unmatched_detections := (List.range num_cols).filter fun j =>
          accepted.all fun p => p.2 ≠ j
        ⟨accepted, unmatched_tracks, unmatched_detections⟩
    | Except.error _ =>
        ⟨[], List.range num_rows, List.range num_cols⟩

/-- Embeds `fuse_score`: rewrite each entry `c` to `1 - (1 - c) * score_j`. -/
def fuse_score (cost_matrix : Mat) (detections : List Detection) : Mat :=
  ⟨cost_matrix.rows, cost_matrix.cols,
   fun i j =>
     let iou_sim := 1 - cost_matrix.entry i j
     let fused_sim := iou_sim * (detections.getD j default).score
     1 - fused_sim⟩

/-! ## byte_tracker.rs -/

/-- Embeds `TrackerConfig`. -/
structure TrackerConfig where
  track_thresh : ℚ
  match_thresh : ℚ
  track_buffer : ℕ
  frame_rate : ℚ
deriving DecidableEq, Repr

/-- Embeds `TrackerConfig::default`. -/
def TrackerConfig.default : TrackerConfig :=
  ⟨1 / 2, 4 / 5, 30, 30⟩

/-- Embeds `BYTETracker`.  The `counter` field renders the process-wide
`TRACK_ID_COUNTER`; it lives inside the tracker state here because the claims
concern a single tracker. -/
structure BYTETracker where
  tracked_stracks : List STrack
  lost_stracks : List STrack
  removed_stracks : List STrack
  frame_id : ℕ
  config : TrackerConfig
  max_time_lost : ℕ
  kalman_filter : KalmanFilter
  counter : ℕ

/-- Embeds `BYTETracker::new`: `max_time_lost = (frame_rate / 30 * track_buffer) as
u32` (the Rust float-to-unsigned cast saturates negative values to zero,
rendered by `Int.toNat` of the floor). -/
def BYTETracker.new (config : TrackerConfig) : BYTETracker where
  tracked_stracks := []
  lost_stracks := []
  removed_stracks := []
  frame_id := 0
  config := config
  max_time_lost := (Int.toNat ⌊config.frame_rate / 30 * config.track_buffer⌋)
  kalman_filter := KalmanFilter.new
  counter := 0

/-- Step 1 of `BYTETracker::update`: split the detections into the high-score
remainder and the low-score list, dropping scores `<= 0.1`. -/
def splitDets (track_thresh : ℚ) (detections : List Detection) :
    List Detection × List Detection :=
  detections.foldl
    (fun acc det =>
      if track_thresh ≤ det.score then (acc.1 ++ [det], acc.2)
      else if 1 / 10 < det.score then (acc.1, acc.2 ++ [det])
      else acc)
    ([], [])

/-- The match-processing loop shared by the first and second association of
`BYTETracker::update`: a `Tracked` pool entry is updated and emitted to
`activated`, any other entry is re-activated (`new_id = false`, so the global
counter is untouched) and emitted to `refind`. -/
def process_matches (pool dets : List STrack) (kf : KalmanFilter) (frame_id : ℕ)
    (counter : ℕ) (ms : List (ℕ × ℕ)) (acc : List STrack × List STrack) :
    List STrack × List STrack :=
  ms.foldl
    (fun ar m =>
      let track := pool.getD m.1 default
      let det := dets.getD m.2 default
      if track.state = TrackState.Tracked then
        (ar.1 ++ [track.update det kf frame_id], ar.2)
      else
        (ar.1, ar.2 ++ [(track.re_activate det kf frame_id false counter).1]))
    acc

/-- Step 4 of `BYTETracker::update`: initiate a new track for every leftover
high-score detection whose score reaches `track_thresh + 0.1`, drawing fresh
ids from the counter. -/
def init_new_tracks (dets_rem : List STrack) (track_thresh : ℚ) (kf : KalmanFilter)
    (frame_id : ℕ) (idxs : List ℕ) (acc : List STrack × ℕ) : List STrack × ℕ :=
  idxs.foldl
    (fun ac i =>
      let track := dets_rem.getD i default
      if track.score < track_thresh + 1 / 10 then ac
      else
        let tc := track.activate kf frame_id ac.2
        (ac.1 ++ [tc.1], tc.2))
    acc

/-- Step 5 of `BYTETracker::update`: sweep the previous lost set, expiring
overdue tracks to removed. -/
def sweep_lost (lost : List STrack) (frame_id max_time_lost : ℕ)
    (acc : List STrack × List STrack) : List STrack × List STrack :=
  lost.foldl
    (fun ac track =>
      if max_time_lost < frame_id - track.end_frame then
        (ac.1, ac.2 ++ [track.mark_removed])
      else
        (ac.1 ++ [track], ac.2))
    acc

/-- Embeds `joint_stracks`: append `tlistb` entries whose id was not seen yet; the
`HashSet` of seen ids is rendered as an id list. -/
def jointAux : List ℕ → List STrack → List STrack → List STrack
  | _, acc, [] => acc
  | seen, acc, t :: ts =>
      if t.track_id ∈ seen then jointAux seen acc ts
      else jointAux (seen ++ [t.track_id]) (acc ++ [t]) ts

/-- Embeds `joint_stracks`. -/
def joint_stracks (tlista tlistb : List STrack) : List STrack :=
  jointAux (tlista.map STrack.track_id) tlista tlistb

/-- Embeds `sub_stracks`: drop from `tlista` every track whose id occurs in
`tlistb`. -/
def sub_stracks (tlista tlistb : List STrack) : List STrack :=
  let b_ids := tlistb.map STrack.track_id
  tlista.filter fun t => decide (t.track_id ∉ b_ids)

/-- One step of the duplicate-marking double loop of
`remove_duplicate_stracks`: for an overlapping pair the shorter-lived side is
flagged (ties flag the `a` side). -/
def dupStep (stracksa stracksb : List STrack) (st : List Bool × List Bool)
    (ij : ℕ × ℕ) : List Bool × List Bool :=
  let ta := stracksa.getD ij.1 default
  let tb := stracksb.getD ij.2 default
  if 17 / 20 < ta.rect.iou tb.rect then
    let time_a := ta.frame_id - ta.start_frame
    let time_b := tb.frame_id - tb.start_frame
    if time_b < time_a then (st.1, st.2.set ij.2 true)
    else (st.1.set ij.1 true, st.2)
  else st

/-- The duplicate flags of `remove_duplicate_stracks`: the row-major double
loop over all index pairs. -/
def dupFlags (stracksa stracksb : List STrack) : List Bool × List Bool :=
  let pairs := (List.range stracksa.length).flatMap
    (fun i => (List.range stracksb.length).map (fun j => (i, j)))
  pairs.foldl (dupStep stracksa stracksb)
    (List.replicate stracksa.length false, List.replicate stracksb.length false)

/-- Embeds `remove_duplicate_stracks`. -/
def remove_duplicate_stracks (stracksa stracksb : List STrack) :
    List STrack × List STrack :=
  if stracksa.isEmpty || stracksb.isEmpty then (stracksa, stracksb)
  else
    let flags := dupFlags stracksa stracksb
    ((stracksa.enum.filter fun p => !flags.1.getD p.1 false).map Prod.snd,
     (stracksb.enum.filter fun p => !flags.2.getD p.1 false).map Prod.snd)

/-- Embeds `BYTETracker::update`, parametric in the `lapjv` oracle.  Returns the new
tracker state together with the returned active-track list. -/
def BYTETracker.update (self : BYTETracker) (solver : SolverOracle)
    (detections : List Detection) : BYTETracker × List STrack :=
  let frame_id := self.frame_id + 1
  let kf := self.kalman_filter
  -- Step 1: split detections into high-score and low-score
  let split := splitDets self.config.track_thresh detections
  let dets := split.1.map fun d => STrack.new d.bbox d.score
  -- Create track pool
  let unconfirmed := self.tracked_stracks.filter fun t => !t.is_activated
  let tracked0 := self.tracked_stracks.filter fun t => t.is_activated
  -- Step 2: first association, with high score detections
  let strack_pool := STrack.multi_predict (joint_stracks tracked0 self.lost_stracks) kf
  let dists := fuse_score
    (iou_distance (strack_pool.map STrack.rect) (dets.map STrack.rect))
    (dets.map fun t => Detection.from_rect t.rect t.score)
  let r1 := linear_assignment solver dists self.config.match_thresh
  let ar1 := process_matches strack_pool dets kf frame_id self.counter r1.matched_pairs ([], [])
  -- Step 3: second association, with low score detection boxes
  let dets2 := split.2.map fun d => STrack.new d.bbox d.score
  let r_tracked := (r1.unmatched_tracks.map fun i => strack_pool.getD i default).filter
    fun t => decide (t.state = TrackState.Tracked)
  let r2 := linear_assignment solver
    (iou_distance (r_tracked.map STrack.rect) (dets2.map STrack.rect)) (1 / 2)
  let ar2 := process_matches r_tracked dets2 kf frame_id self.counter r2.matched_pairs ar1
  let lost_new := ((r2.unmatched_tracks.map fun i => r_tracked.getD i default).filter
    fun t => decide (t.state ≠ TrackState.Lost)).map STrack.mark_lost
  -- Deal with unconfirmed tracks
  let dets_rem := r1.unmatched_detections.map fun i => dets.getD i default
  let r3 := linear_assignment solver
    (fuse_score (iou_distance (unconfirmed.map STrack.rect) (dets_rem.map STrack.rect))
      (dets_rem.map fun t => Detection.from_rect t.rect t.score)) (7 / 10)
  let act_unc := r3.matched_pairs.map fun m =>
    (unconfirmed.getD m.1 default).update (dets_rem.getD m.2 default) kf frame_id
  let removed_unc := (r3.unmatched_tracks.map fun i => unconfirmed.getD i default).map
    STrack.mark_removed
  -- Step 4: init new stracks
  let init := init_new_tracks dets_rem self.config.track_thresh kf frame_id
    r3.unmatched_detections ([], self.counter)
  -- Step 5: update state
  let sweep := sweep_lost self.lost_stracks frame_id self.max_time_lost
    (lost_new, removed_unc)
  let tracked1 := (ar2.1 ++ act_unc ++ init.1 ++ ar2.2).filter
    fun t => decide (t.state = TrackState.Tracked)
  let lost1 := sub_stracks sweep.1 tracked1
  let dedup := remove_duplicate_stracks tracked1 lost1
  ({ self with
      tracked_stracks := dedup.1
      lost_stracks := dedup.2
      removed_stracks := self.removed_stracks ++ sweep.2
      frame_id := frame_id
      counter := init.2 },
   dedup.1.filter fun t => t.is_activated)

/-- Tracker states reachable from a fresh construction by per-frame updates
(for arbitrary detection inputs and arbitrary solver behaviour). -/
inductive Reachable : BYTETracker → Prop where
  | new (config : TrackerConfig) : Reachable (BYTETracker.new config)
  | update (s : BYTETracker) (solver : SolverOracle) (detections : List Detection) :
      Reachable s → Reachable (s.update solver detections).1


namespace Rect

theorem iou_nonneg (a b : Rect) : 0 ≤ a.iou b := by
  unfold iou
  dsimp only
  split
  case isTrue h =>
    exact div_nonneg (mul_nonneg (le_max_right _ _) (le_max_right _ _)) (le_of_lt h)
  case isFalse h => exact le_refl 0

theorem iou_le_one (a b : Rect) : a.iou b ≤ 1 := by
  unfold iou
  dsimp only
  split
  case isFalse h => exact zero_le_one
  case isTrue hu =>
    set x1 := max a.x b.x with hx1
    set y1 := max a.y b.y with hy1
    set x2 := min (a.x + a.width) (b.x + b.width) with hx2
    set y2 := min (a.y + a.height) (b.y + b.height) with hy2
    set iw := max (x2 - x1) 0 with hiw
    set ih := max (y2 - y1) 0 with hih
    have hiw0 : 0 ≤ iw := le_max_right _ _
    have hih0 : 0 ≤ ih := le_max_right _ _
    rcases eq_or_lt_of_le (mul_nonneg hiw0 hih0) with hz | hpos
    · rw [← hz, zero_div]
      exact zero_le_one
    · have hiwpos : 0 < iw := by
        rcases hiw0.lt_or_eq with h | h
        · exact h
        · exfalso; rw [← h, zero_mul] at hpos; exact lt_irrefl 0 hpos
      have hihpos : 0 < ih := by
        rcases hih0.lt_or_eq with h | h
        · exact h
        · exfalso; rw [← h, mul_zero] at hpos; exact lt_irrefl 0 hpos
      have hxlt : x1 < x2 := by
        by_contra hc
        push_neg at hc
        have : iw = 0 := max_eq_right (by linarith)
        rw [this] at hiwpos; exact lt_irrefl 0 hiwpos
      have hylt : y1 < y2 := by
        by_contra hc
        push_neg at hc
        have : ih = 0 := max_eq_right (by linarith)
        rw [this] at hihpos; exact lt_irrefl 0 hihpos
      have hiw_eq : iw = x2 - x1 := max_eq_left (by linarith)
      have hih_eq : ih = y2 - y1 := max_eq_left (by linarith)
      have hax : a.x ≤ x1 := le_max_left _ _
      have hbx : b.x ≤ x1 := le_max_right _ _
      have hay : a.y ≤ y1 := le_max_left _ _
      have hby : b.y ≤ y1 := le_max_right _ _
      have hax2 : x2 ≤ a.x + a.width := min_le_left _ _
      have hbx2 : x2 ≤ b.x + b.width := min_le_right _ _
      have hay2 : y2 ≤ a.y + a.height := min_le_left _ _
      have hby2 : y2 ≤ b.y + b.height := min_le_right _ _
      have hiwa : iw ≤ a.width := by rw [hiw_eq]; linarith
      have hiwb : iw ≤ b.width := by rw [hiw_eq]; linarith
      have hiha : ih ≤ a.height := by rw [hih_eq]; linarith
      have hihb : ih ≤ b.height := by rw [hih_eq]; linarith
      have hA : iw * ih ≤ a.area := by
        unfold area
        exact mul_le_mul hiwa hiha (le_of_lt hihpos) (by linarith)
      have hB : iw * ih ≤ b.area := by
        unfold area
        exact mul_le_mul hiwb hihb (le_of_lt hihpos) (by linarith)
      rw [div_le_one hu]
      linarith

theorem iou_comm (a b : Rect) : a.iou b = b.iou a := by
  unfold iou area
  dsimp only
  rw [max_comm a.x b.x, max_comm a.y b.y, min_comm (a.x + a.width) (b.x + b.width),
    min_comm (a.y + a.height) (b.y + b.height)]
  ring_nf

theorem iou_self (a : Rect) (hw : 0 < a.width) (hh : 0 < a.height) : a.iou a = 1 := by
  unfold iou area
  dsimp only
  rw [max_self, max_self, min_self, min_self]
  have h1 : a.x + a.width - a.x = a.width := by ring
  have h2 : a.y + a.height - a.y = a.height := by ring
  rw [h1, h2, max_eq_left hw.le, max_eq_left hh.le]
  have hu : a.width * a.height + a.width * a.height - a.width * a.height
      = a.width * a.height := by ring
  rw [hu, if_pos (by positivity)]
  exact div_self (by positivity)

theorem iou_disjoint (a b : Rect) (h : Rect.Disjoint a b) : a.iou b = 0 := by
  unfold iou
  dsimp only
  have hz : max (min (a.x + a.width) (b.x + b.width) - max a.x b.x) 0 *
      max (min (a.y + a.height) (b.y + b.height) - max a.y b.y) 0 = 0 := by
    rcases h with h | h | h | h
    · have : min (a.x + a.width) (b.x + b.width) - max a.x b.x ≤ 0 := by
        have h1 : min (a.x + a.width) (b.x + b.width) ≤ a.x + a.width := min_le_left _ _
        have h2 : b.x ≤ max a.x b.x := le_max_right _ _
        linarith
      rw [max_eq_right this, zero_mul]
    · have : min (a.x + a.width) (b.x + b.width) - max a.x b.x ≤ 0 := by
        have h1 : min (a.x + a.width) (b.x + b.width) ≤ b.x + b.width := min_le_right _ _
        have h2 : a.x ≤ max a.x b.x := le_max_left _ _
        linarith
      rw [max_eq_right this, zero_mul]
    · have : min (a.y + a.height) (b.y + b.height) - max a.y b.y ≤ 0 := by
        have h1 : min (a.y + a.height) (b.y + b.height) ≤ a.y + a.height := min_le_left _ _
        have h2 : b.y ≤ max a.y b.y := le_max_right _ _
        linarith
      rw [max_eq_right this, mul_zero]
    · have : min (a.y + a.height) (b.y + b.height) - max a.y b.y ≤ 0 := by
        have h1 : min (a.y + a.height) (b.y + b.height) ≤ b.y + b.height := min_le_right _ _
        have h2 : a.y ≤ max a.y b.y := le_max_left _ _
        linarith
      rw [max_eq_right this, mul_zero]
  rw [hz]
  split
  · exact zero_div _
  · rfl

end Rect

/-- Claim C9 (fails as stated): the self-IoU of the degenerate zero rectangle
is `0`, not `1`, because its union area is not positive. -/
theorem c9_counterexample :
    (Rect.new 0 0 0 0).iou (Rect.new 0 0 0 0) = 0 ∧
    (Rect.new 0 0 0 0).iou (Rect.new 0 0 0 0) ≠ 1 := by
  constructor
  · norm_num [Rect.iou, Rect.new, Rect.area]
  · norm_num [Rect.iou, Rect.new, Rect.area]

/-- Claim C9 (amended): self-IoU is `1` for every rectangle of positive width
and height; disjoint rectangles have IoU `0`; IoU is symmetric; and IoU always
lies in `[0, 1]`. -/
theorem c9_iou_props (a b : Rect) :
    (0 < a.width → 0 < a.height → a.iou a = 1) ∧
    (Rect.Disjoint a b → a.iou b = 0) ∧
    a.iou b = b.iou a ∧ 0 ≤ a.iou b ∧ a.iou b ≤ 1 :=
  ⟨fun hw hh => Rect.iou_self a hw hh, fun h => Rect.iou_disjoint a b h,
   Rect.iou_comm a b, Rect.iou_nonneg a b, Rect.iou_le_one a b⟩

/-- Witness for C9 at the unit square and a far-away unit square. -/
theorem c9_witness :
    (Rect.new 0 0 1 1).iou (Rect.new 0 0 1 1) = 1 ∧
    (Rect.new 0 0 1 1).iou (Rect.new 5 5 1 1) = 0 ∧
    (Rect.new 0 0 1 1).iou (Rect.new 5 5 1 1) = (Rect.new 5 5 1 1).iou (Rect.new 0 0 1 1) ∧
    0 ≤ (Rect.new 0 0 1 1).iou (Rect.new 5 5 1 1) ∧
    (Rect.new 0 0 1 1).iou (Rect.new 5 5 1 1) ≤ 1 := by
  obtain ⟨h1, h2, h3, h4, h5⟩ := c9_iou_props (Rect.new 0 0 1 1) (Rect.new 5 5 1 1)
  exact ⟨h1 one_pos one_pos, h2 (Or.inl (by norm_num [Rect.new])), h3, h4, h5⟩

/-- The configuration error the specification promises.  No such type exists
anywhere in the source: `BYTETracker::new` is infallible. -/
inductive ConfigError where
  | invalid
deriving DecidableEq, Repr

/-- Embeds `BYTETracker::new` wrapped in `Except` so that the spec's claimed error
surface can be stated; the source constructor always succeeds, so the result
is always `ok`. -/
def BYTETracker.try_new (config : TrackerConfig) : Except ConfigError BYTETracker :=
  Except.ok (BYTETracker.new config)

/-- Claim C3 (fails as stated): a configuration with non-positive
`frame_rate` is accepted; construction succeeds and performs no validation. -/
theorem c3_counterexample :
    (({ track_thresh := 1/2, match_thresh := 4/5, track_buffer := 30,
        frame_rate := -1 } : TrackerConfig).frame_rate ≤ 0) ∧
    BYTETracker.try_new
        { track_thresh := 1/2, match_thresh := 4/5, track_buffer := 30, frame_rate := -1 }
      = Except.ok (BYTETracker.new
        { track_thresh := 1/2, match_thresh := 4/5, track_buffer := 30, frame_rate := -1 }) :=
  ⟨by norm_num, rfl⟩

/-- Claim C3 (amended): construction never fails.  `BYTETracker::new`
validates nothing, accepts every configuration (the buffer is unsigned, so a
negative buffer is not even representable), and returns the empty tracker
with `max_time_lost = (frame_rate / 30 * track_buffer)` truncated to `u32`. -/
theorem c3_construction_total (config : TrackerConfig) :
    BYTETracker.try_new config = Except.ok (BYTETracker.new config) ∧
    (BYTETracker.new config).config = config ∧
    (BYTETracker.new config).max_time_lost
      = Int.toNat ⌊config.frame_rate / 30 * config.track_buffer⌋ ∧
    (BYTETracker.new config).tracked_stracks = [] ∧
    (BYTETracker.new config).lost_stracks = [] ∧
    (BYTETracker.new config).removed_stracks = [] ∧
    (BYTETracker.new config).frame_id = 0 :=
  ⟨rfl, rfl, rfl, rfl, rfl, rfl, rfl⟩

/-- Claim C6: `activate` draws the fresh non-zero id `counter + 1`, initiates
the Kalman moments from the initial `tlwh` in XYAH, resets `tracklet_len`,
sets the state to `Tracked`, stamps both frame fields with `frame_id`, and
confirms the track exactly when `frame_id = 1`. -/
theorem c6_activate_spec (t : STrack) (kf : KalmanFilter) (f c : ℕ)
    (hstate : t.state = TrackState.New) (hact : t.is_activated = false) :
    (t.activate kf f c).1.track_id = c + 1 ∧
    (t.activate kf f c).1.track_id ≠ 0 ∧
    (t.activate kf f c).2 = c + 1 ∧
    (t.activate kf f c).1.mean = some (kf.initiate t.tlwh.to_xyah).1 ∧
    (t.activate kf f c).1.covariance = some (kf.initiate t.tlwh.to_xyah).2 ∧
    (t.activate kf f c).1.tracklet_len = 0 ∧
    (t.activate kf f c).1.state = TrackState.Tracked ∧
    (t.activate kf f c).1.start_frame = f ∧
    (t.activate kf f c).1.frame_id = f ∧
    ((t.activate kf f c).1.is_activated = true ↔ f = 1) := by
  cases t
  simp only at hact
  subst hact
  refine ⟨rfl, Nat.succ_ne_zero c, rfl, rfl, rfl, rfl, rfl, rfl, rfl, ?_⟩
  show (if f = 1 then true else false) = true ↔ f = 1
  split
  case isTrue h => simp [h]
  case isFalse h => simp [h]

/-- Witness for C6: activating a fresh track at frame 1 with counter 0. -/
theorem c6_witness :
    ((STrack.new (Rect.new 0 0 10 10) (9/10)).activate KalmanFilter.new 1 0).1.track_id = 1 ∧
    ((STrack.new (Rect.new 0 0 10 10) (9/10)).activate KalmanFilter.new 1 0).1.track_id ≠ 0 ∧
    ((STrack.new (Rect.new 0 0 10 10) (9/10)).activate KalmanFilter.new 1 0).2 = 1 ∧
    ((STrack.new (Rect.new 0 0 10 10) (9/10)).activate KalmanFilter.new 1 0).1.mean
      = some (KalmanFilter.new.initiate (Rect.new 0 0 10 10).to_xyah).1 ∧
    ((STrack.new (Rect.new 0 0 10 10) (9/10)).activate KalmanFilter.new 1 0).1.covariance
      = some (KalmanFilter.new.initiate (Rect.new 0 0 10 10).to_xyah).2 ∧
    ((STrack.new (Rect.new 0 0 10 10) (9/10)).activate KalmanFilter.new 1 0).1.tracklet_len = 0 ∧
    ((STrack.new (Rect.new 0 0 10 10) (9/10)).activate KalmanFilter.new 1 0).1.state
      = TrackState.Tracked ∧
    ((STrack.new (Rect.new 0 0 10 10) (9/10)).activate KalmanFilter.new 1 0).1.start_frame = 1 ∧
    ((STrack.new (Rect.new 0 0 10 10) (9/10)).activate KalmanFilter.new 1 0).1.frame_id = 1 ∧
    (((STrack.new (Rect.new 0 0 10 10) (9/10)).activate KalmanFilter.new 1 0).1.is_activated = true
      ↔ (1 : ℕ) = 1) :=
  c6_activate_spec (STrack.new (Rect.new 0 0 10 10) (9/10)) KalmanFilter.new 1 0 rfl rfl

/-- Claim C8: with Kalman moments present, `predict` applies one filter
prediction; for a non-`Tracked` track the mean's height-velocity component
(index 7) is zeroed before the prediction, while a `Tracked` track's mean is
passed unchanged. -/
theorem c8_predict_spec (t : STrack) (kf : KalmanFilter) (m : Fin 8 → ℚ)
    (c : Matrix (Fin 8) (Fin 8) ℚ) (hm : t.mean = some m) (hc : t.covariance = some c) :
    (t.state ≠ TrackState.Tracked →
      t.predict kf = { t with
        mean := some (kf.predict (Function.update m 7 0) c).1,
        covariance := some (kf.predict (Function.update m 7 0) c).2 }) ∧
    (t.state = TrackState.Tracked →
      t.predict kf = { t with
        mean := some (kf.predict m c).1,
        covariance := some (kf.predict m c).2 }) := by
  cases t
  simp only at hm hc
  subst hm
  subst hc
  constructor
  · intro h
    simp only at h
    simp only [STrack.predict]
    rw [if_pos h]
  · intro h
    simp only at h
    subst h
    simp only [STrack.predict]
    rw [if_neg (by simp)]

/-- Concrete witness data for C8: a lost track carrying Kalman moments. -/
def c8m : Fin 8 → ℚ := fun _ => 1

def c8c : Matrix (Fin 8) (Fin 8) ℚ := 1

def c8t : STrack :=
  ⟨1, TrackState.Lost, true, 1, 1, 1, 0, some c8m, some c8c, Rect.new 0 0 1 1⟩

/-- Witness for C8: predicting a `Lost` track zeroes index 7 first. -/
theorem c8_witness :
    c8t.predict KalmanFilter.new = { c8t with
      mean := some (KalmanFilter.new.predict (Function.update c8m 7 0) c8c).1,
      covariance := some (KalmanFilter.new.predict (Function.update c8m 7 0) c8c).2 } :=
  (c8_predict_spec c8t KalmanFilter.new c8m c8c rfl rfl).1 (by decide)

/-- Claim C10: with absent Kalman moments, `update` and `re_activate` skip
the filter update and leave the moments absent, while still performing their
bookkeeping: state `Tracked`, confirmed, frame stamped, score copied,
`tracklet_len` incremented (update) or reset (re_activate). -/
theorem c10_update_reactivate_absent_moments (t nt : STrack) (kf : KalmanFilter)
    (f : ℕ) (new_id : Bool) (c : ℕ) (hm : t.mean = none) (hc : t.covariance = none) :
    ((t.update nt kf f).mean = none ∧
     (t.update nt kf f).covariance = none ∧
     (t.update nt kf f).state = TrackState.Tracked ∧
     (t.update nt kf f).is_activated = true ∧
     (t.update nt kf f).frame_id = f ∧
     (t.update nt kf f).score = nt.score ∧
     (t.update nt kf f).tracklet_len = t.tracklet_len + 1) ∧
    ((t.re_activate nt kf f new_id c).1.mean = none ∧
     (t.re_activate nt kf f new_id c).1.covariance = none ∧
     (t.re_activate nt kf f new_id c).1.state = TrackState.Tracked ∧
     (t.re_activate nt kf f new_id c).1.is_activated = true ∧
     (t.re_activate nt kf f new_id c).1.frame_id = f ∧
     (t.re_activate nt kf f new_id c).1.score = nt.score ∧
     (t.re_activate nt kf f new_id c).1.tracklet_len = 0) := by
  cases t
  simp only at hm hc
  subst hm
  subst hc
  constructor
  · simp [STrack.update]
  · cases new_id <;> simp [STrack.re_activate]

/-- Witness for C10 on a freshly constructed (moment-free) track. -/
theorem c10_witness :
    (((STrack.new (Rect.new 0 0 1 1) (1/2)).update (STrack.new (Rect.new 1 1 2 2) (3/4))
        KalmanFilter.new 5).mean = none ∧
     ((STrack.new (Rect.new 0 0 1 1) (1/2)).update (STrack.new (Rect.new 1 1 2 2) (3/4))
        KalmanFilter.new 5).covariance = none ∧
     ((STrack.new (Rect.new 0 0 1 1) (1/2)).update (STrack.new (Rect.new 1 1 2 2) (3/4))
        KalmanFilter.new 5).state = TrackState.Tracked ∧
     ((STrack.new (Rect.new 0 0 1 1) (1/2)).update (STrack.new (Rect.new 1 1 2 2) (3/4))
        KalmanFilter.new 5).is_activated = true ∧
     ((STrack.new (Rect.new 0 0 1 1) (1/2)).update (STrack.new (Rect.new 1 1 2 2) (3/4))
        KalmanFilter.new 5).frame_id = 5 ∧
     ((STrack.new (Rect.new 0 0 1 1) (1/2)).update (STrack.new (Rect.new 1 1 2 2) (3/4))
        KalmanFilter.new 5).score = (STrack.new (Rect.new 1 1 2 2) (3/4)).score ∧
     ((STrack.new (Rect.new 0 0 1 1) (1/2)).update (STrack.new (Rect.new 1 1 2 2) (3/4))
        KalmanFilter.new 5).tracklet_len
       = (STrack.new (Rect.new 0 0 1 1) (1/2)).tracklet_len + 1) ∧
    (((STrack.new (Rect.new 0 0 1 1) (1/2)).re_activate (STrack.new (Rect.new 1 1 2 2) (3/4))
        KalmanFilter.new 5 false 7).1.mean = none ∧
     ((STrack.new (Rect.new 0 0 1 1) (1/2)).re_activate (STrack.new (Rect.new 1 1 2 2) (3/4))
        KalmanFilter.new 5 false 7).1.covariance = none ∧
     ((STrack.new (Rect.new 0 0 1 1) (1/2)).re_activate (STrack.new (Rect.new 1 1 2 2) (3/4))
        KalmanFilter.new 5 false 7).1.state = TrackState.Tracked ∧
     ((STrack.new (Rect.new 0 0 1 1) (1/2)).re_activate (STrack.new (Rect.new 1 1 2 2) (3/4))
        KalmanFilter.new 5 false 7).1.is_activated = true ∧
     ((STrack.new (Rect.new 0 0 1 1) (1/2)).re_activate (STrack.new (Rect.new 1 1 2 2) (3/4))
        KalmanFilter.new 5 false 7).1.frame_id = 5 ∧
     ((STrack.new (Rect.new 0 0 1 1) (1/2)).re_activate (STrack.new (Rect.new 1 1 2 2) (3/4))
        KalmanFilter.new 5 false 7).1.score = (STrack.new (Rect.new 1 1 2 2) (3/4)).score ∧
     ((STrack.new (Rect.new 0 0 1 1) (1/2)).re_activate (STrack.new (Rect.new 1 1 2 2) (3/4))
        KalmanFilter.new 5 false 7).1.tracklet_len = 0) :=
  c10_update_reactivate_absent_moments (STrack.new (Rect.new 0 0 1 1) (1/2))
    (STrack.new (Rect.new 1 1 2 2) (3/4)) KalmanFilter.new 5 false 7 rfl rfl

/-! ## Claim C7: duplicate removal -/

theorem getD_set_self (l : List Bool) (i : ℕ) (v : Bool) (h : i < l.length) :
    (l.set i v).getD i false = v := by
  simp [List.getD_eq_getElem?_getD, List.getElem?_set_self, h]

theorem getD_set_ne (l : List Bool) (i j : ℕ) (v : Bool) (h : i ≠ j) :
    (l.set i v).getD j false = l.getD j false := by
  simp [List.getD_eq_getElem?_getD, List.getElem?_set_ne h]

/-- The pair `(i, j)` trips the a-side flag: overlap with age of `a` at most
the age of `b`. -/
def dupCondA (a b : List STrack) (p : ℕ × ℕ) : Prop :=
  17 / 20 < ((a.getD p.1 default).rect.iou (b.getD p.2 default).rect) ∧
  ¬((b.getD p.2 default).frame_id - (b.getD p.2 default).start_frame <
    (a.getD p.1 default).frame_id - (a.getD p.1 default).start_frame)

/-- The pair `(i, j)` trips the b-side flag: overlap with `b` strictly
younger than `a`. -/
def dupCondB (a b : List STrack) (p : ℕ × ℕ) : Prop :=
  17 / 20 < ((a.getD p.1 default).rect.iou (b.getD p.2 default).rect) ∧
  ((b.getD p.2 default).frame_id - (b.getD p.2 default).start_frame <
    (a.getD p.1 default).frame_id - (a.getD p.1 default).start_frame)

theorem dupStep_lengths (a b : List STrack) (st : List Bool × List Bool) (p : ℕ × ℕ) :
    (dupStep a b st p).1.length = st.1.length ∧
    (dupStep a b st p).2.length = st.2.length := by
  unfold dupStep
  dsimp only
  split
  · split <;> simp
  · exact ⟨rfl, rfl⟩

theorem dupFold_spec (a b : List STrack) (L : List (ℕ × ℕ))
    (hL : ∀ p ∈ L, p.1 < a.length ∧ p.2 < b.length) :
    ∀ st : List Bool × List Bool, st.1.length = a.length → st.2.length = b.length →
      (L.foldl (dupStep a b) st).1.length = a.length ∧
      (L.foldl (dupStep a b) st).2.length = b.length ∧
      (∀ i, (L.foldl (dupStep a b) st).1.getD i false = true ↔
        (st.1.getD i false = true ∨ ∃ p ∈ L, p.1 = i ∧ dupCondA a b p)) ∧
      (∀ j, (L.foldl (dupStep a b) st).2.getD j false = true ↔
        (st.2.getD j false = true ∨ ∃ p ∈ L, p.2 = j ∧ dupCondB a b p)) := by
  induction L with
  | nil => intro st h1 h2; exact ⟨h1, h2, by simp, by simp⟩
  | cons p L ih =>
      intro st h1 h2
      have hp := hL p (List.mem_cons_self p L)
      have hL' : ∀ q ∈ L, q.1 < a.length ∧ q.2 < b.length :=
        fun q hq => hL q (List.mem_cons_of_mem p hq)
      have hlen := dupStep_lengths a b st p
      have step := ih hL' (dupStep a b st p) (hlen.1.trans h1) (hlen.2.trans h2)
      rw [List.foldl_cons]
      refine ⟨step.1, step.2.1, ?_, ?_⟩
      · intro i
        rw [step.2.2.1 i]
        unfold dupStep
        dsimp only
        by_cases hiou : 17 / 20 <
            ((a.getD p.1 default).rect.iou (b.getD p.2 default).rect)
        · rw [if_pos hiou]
          by_cases htime : (b.getD p.2 default).frame_id - (b.getD p.2 default).start_frame <
              (a.getD p.1 default).frame_id - (a.getD p.1 default).start_frame
          · rw [if_pos htime]
            dsimp only
            constructor
            · rintro (h | h)
              · exact Or.inl h
              · rcases h with ⟨q, hq, rfl, hcond⟩
                exact Or.inr ⟨q, List.mem_cons_of_mem p hq, rfl, hcond⟩
            · rintro (h | ⟨q, hq, rfl, hcond⟩)
              · exact Or.inl h
              · rcases List.mem_cons.mp hq with rfl | hq
                · exact absurd hcond.2 (by exact fun hn => hn htime)
                · exact Or.inr ⟨q, hq, rfl, hcond⟩
          · rw [if_neg htime]
            dsimp only
            by_cases hip : p.1 = i
            · subst hip
              rw [getD_set_self st.1 p.1 true (h1 ▸ hp.1)]
              constructor
              · intro _
                exact Or.inr ⟨p, List.mem_cons_self p L, rfl, hiou, htime⟩
              · intro _
                exact Or.inl rfl
            · rw [getD_set_ne st.1 p.1 i true hip]
              constructor
              · rintro (h | h)
                · exact Or.inl h
                · rcases h with ⟨q, hq, rfl, hcond⟩
                  exact Or.inr ⟨q, List.mem_cons_of_mem p hq, rfl, hcond⟩
              · rintro (h | ⟨q, hq, rfl, hcond⟩)
                · exact Or.inl h
                · rcases List.mem_cons.mp hq with rfl | hq
                  · exact absurd rfl hip
                  · exact Or.inr ⟨q, hq, rfl, hcond⟩
        · rw [if_neg hiou]
          constructor
          · rintro (h | h)
            · exact Or.inl h
            · rcases h with ⟨q, hq, rfl, hcond⟩
              exact Or.inr ⟨q, List.mem_cons_of_mem p hq, rfl, hcond⟩
          · rintro (h | ⟨q, hq, rfl, hcond⟩)
            · exact Or.inl h
            · rcases List.mem_cons.mp hq with rfl | hq
              · exact absurd hcond.1 hiou
              · exact Or.inr ⟨q, hq, rfl, hcond⟩
      · intro j
        rw [step.2.2.2 j]
        unfold dupStep
        dsimp only
        by_cases hiou : 17 / 20 <
            ((a.getD p.1 default).rect.iou (b.getD p.2 default).rect)
        · rw [if_pos hiou]
          by_cases htime : (b.getD p.2 default).frame_id - (b.getD p.2 default).start_frame <
              (a.getD p.1 default).frame_id - (a.getD p.1 default).start_frame
          · rw [if_pos htime]
            dsimp only
            by_cases hjp : p.2 = j
            · subst hjp
              rw [getD_set_self st.2 p.2 true (h2 ▸ hp.2)]
              constructor
              · intro _
                exact Or.inr ⟨p, List.mem_cons_self p L, rfl, hiou, htime⟩
              · intro _
                exact Or.inl rfl
            · rw [getD_set_ne st.2 p.2 j true hjp]
              constructor
              · rintro (h | h)
                · exact Or.inl h
                · rcases h with ⟨q, hq, rfl, hcond⟩
                  exact Or.inr ⟨q, List.mem_cons_of_mem p hq, rfl, hcond⟩
              · rintro (h | ⟨q, hq, rfl, hcond⟩)
                · exact Or.inl h
                · rcases List.mem_cons.mp hq with rfl | hq
                  · exact absurd rfl hjp
                  · exact Or.inr ⟨q, hq, rfl, hcond⟩
          · rw [if_neg htime]
            dsimp only
            constructor
            · rintro (h | h)
              · exact Or.inl h
              · rcases h with ⟨q, hq, rfl, hcond⟩
                exact Or.inr ⟨q, List.mem_cons_of_mem p hq, rfl, hcond⟩
            · rintro (h | ⟨q, hq, rfl, hcond⟩)
              · exact Or.inl h
              · rcases List.mem_cons.mp hq with rfl | hq
                · exact absurd hcond.2 htime
                · exact Or.inr ⟨q, hq, rfl, hcond⟩
        · rw [if_neg hiou]
          constructor
          · rintro (h | h)
            · exact Or.inl h
            · rcases h with ⟨q, hq, rfl, hcond⟩
              exact Or.inr ⟨q, List.mem_cons_of_mem p hq, rfl, hcond⟩
          · rintro (h | ⟨q, hq, rfl, hcond⟩)
            · exact Or.inl h
            · rcases List.mem_cons.mp hq with rfl | hq
              · exact absurd hcond.1 hiou
              · exact Or.inr ⟨q, hq, rfl, hcond⟩

theorem getD_replicate_false (n i : ℕ) : (List.replicate n false).getD i false = false := by
  simp [List.getD_eq_getElem?_getD, List.getElem?_replicate]
  split <;> rfl

theorem dupFlags_spec (a b : List STrack) :
    (∀ i, (dupFlags a b).1.getD i false = true ↔
      i < a.length ∧ ∃ j, j < b.length ∧ dupCondA a b (i, j)) ∧
    (∀ j, (dupFlags a b).2.getD j false = true ↔
      j < b.length ∧ ∃ i, i < a.length ∧ dupCondB a b (i, j)) := by
  unfold dupFlags
  dsimp only
  have hmem : ∀ p : ℕ × ℕ, p ∈ (List.range a.length).flatMap
      (fun i => (List.range b.length).map fun j => (i, j)) ↔
      p.1 < a.length ∧ p.2 < b.length := by
    intro p
    simp only [List.mem_flatMap, List.mem_map, List.mem_range]
    constructor
    · rintro ⟨i, hi, j, hj, rfl⟩; exact ⟨hi, hj⟩
    · rintro ⟨h1, h2⟩; exact ⟨p.1, h1, p.2, h2, rfl⟩
  have hspec := dupFold_spec a b
    ((List.range a.length).flatMap (fun i => (List.range b.length).map fun j => (i, j)))
    (fun p hp => (hmem p).mp hp)
    (List.replicate a.length false, List.replicate b.length false)
    (by simp) (by simp)
  constructor
  · intro i
    rw [hspec.2.2.1 i]
    simp only [getD_replicate_false, Bool.false_eq_true, false_or]
    constructor
    · rintro ⟨p, hp, rfl, hcond⟩
      rcases (hmem p).mp hp with ⟨h1, h2⟩
      exact ⟨h1, p.2, h2, hcond⟩
    · rintro ⟨h1, j, h2, hcond⟩
      exact ⟨(i, j), (hmem (i, j)).mpr ⟨h1, h2⟩, rfl, hcond⟩
  · intro j
    rw [hspec.2.2.2 j]
    simp only [getD_replicate_false, Bool.false_eq_true, false_or]
    constructor
    · rintro ⟨p, hp, rfl, hcond⟩
      rcases (hmem p).mp hp with ⟨h1, h2⟩
      exact ⟨h2, p.1, h1, hcond⟩
    · rintro ⟨h1, i, h2, hcond⟩
      exact ⟨(i, j), (hmem (i, j)).mpr ⟨h2, h1⟩, rfl, hcond⟩

/-- Claim C7: in the deduplication step, an overlapping `(tracked, lost)` pair
(IoU above 0.85) flags the shorter-lived side for dropping, ties flagging the
tracked side; each flag arises only from some such overlapping pair (so pairs
with IoU at most 0.85 cause no drop); and the surviving sets are exactly the
unflagged entries. -/
theorem c7_remove_duplicate_spec (a b : List STrack) (i j : ℕ)
    (hi : i < a.length) (hj : j < b.length) :
    (17 / 20 < ((a.getD i default).rect.iou (b.getD j default).rect) →
      if (b.getD j default).frame_id - (b.getD j default).start_frame <
          (a.getD i default).frame_id - (a.getD i default).start_frame
      then (dupFlags a b).2.getD j false = true
      else (dupFlags a b).1.getD i false = true) ∧
    ((dupFlags a b).1.getD i false = true →
      ∃ j2, j2 < b.length ∧
        17 / 20 < ((a.getD i default).rect.iou (b.getD j2 default).rect) ∧
        ¬((b.getD j2 default).frame_id - (b.getD j2 default).start_frame <
          (a.getD i default).frame_id - (a.getD i default).start_frame)) ∧
    ((dupFlags a b).2.getD j false = true →
      ∃ i2, i2 < a.length ∧
        17 / 20 < ((a.getD i2 default).rect.iou (b.getD j default).rect) ∧
        ((b.getD j default).frame_id - (b.getD j default).start_frame <
          (a.getD i2 default).frame_id - (a.getD i2 default).start_frame)) ∧
    remove_duplicate_stracks a b =
      ((a.enum.filter fun p => !(dupFlags a b).1.getD p.1 false).map Prod.snd,
       (b.enum.filter fun p => !(dupFlags a b).2.getD p.1 false).map Prod.snd) := by
  obtain ⟨hA, hB⟩ := dupFlags_spec a b
  refine ⟨?_, ?_, ?_, ?_⟩
  · intro hiou
    by_cases htime : (b.getD j default).frame_id - (b.getD j default).start_frame <
        (a.getD i default).frame_id - (a.getD i default).start_frame
    · rw [if_pos htime]
      exact (hB j).mpr ⟨hj, i, hi, hiou, htime⟩
    · rw [if_neg htime]
      exact (hA i).mpr ⟨hi, j, hj, hiou, htime⟩
  · intro hflag
    rcases (hA i).mp hflag with ⟨_, j2, hj2, hcond⟩
    exact ⟨j2, hj2, hcond.1, hcond.2⟩
  · intro hflag
    rcases (hB j).mp hflag with ⟨_, i2, hi2, hcond⟩
    exact ⟨i2, hi2, hcond.1, hcond.2⟩
  · have ha : a.isEmpty = false := by
      cases a
      · simp at hi
      · rfl
    have hb : b.isEmpty = false := by
      cases b
      · simp at hj
      · rfl
    unfold remove_duplicate_stracks
    rw [ha, hb]
    rfl

/-- Witness data for C7: an overlapping tracked/lost pair with equal ages. -/
def c7ta : STrack :=
  ⟨1, TrackState.Tracked, true, 1, 3, 2, 0, none, none, Rect.new 0 0 4 4⟩

/-- Witness data for C7: the lost-side overlapping track. -/
def c7tb : STrack :=
  ⟨2, TrackState.Lost, true, 1, 3, 2, 0, none, none, Rect.new 0 0 4 4⟩

/-- Witness for C7 at the singleton overlapping pair. -/
theorem c7_witness :
    (17 / 20 < (([c7ta].getD 0 default).rect.iou ([c7tb].getD 0 default).rect) →
      if ([c7tb].getD 0 default).frame_id - ([c7tb].getD 0 default).start_frame <
          ([c7ta].getD 0 default).frame_id - ([c7ta].getD 0 default).start_frame
      then (dupFlags [c7ta] [c7tb]).2.getD 0 false = true
      else (dupFlags [c7ta] [c7tb]).1.getD 0 false = true) ∧
    ((dupFlags [c7ta] [c7tb]).1.getD 0 false = true →
      ∃ j2, j2 < [c7tb].length ∧
        17 / 20 < (([c7ta].getD 0 default).rect.iou ([c7tb].getD j2 default).rect) ∧
        ¬(([c7tb].getD j2 default).frame_id - ([c7tb].getD j2 default).start_frame <
          ([c7ta].getD 0 default).frame_id - ([c7ta].getD 0 default).start_frame)) ∧
    ((dupFlags [c7ta] [c7tb]).2.getD 0 false = true →
      ∃ i2, i2 < [c7ta].length ∧
        17 / 20 < (([c7ta].getD i2 default).rect.iou ([c7tb].getD 0 default).rect) ∧
        (([c7tb].getD 0 default).frame_id - ([c7tb].getD 0 default).start_frame <
          ([c7ta].getD i2 default).frame_id - ([c7ta].getD i2 default).start_frame)) ∧
    remove_duplicate_stracks [c7ta] [c7tb] =
      (([c7ta].enum.filter fun p => !(dupFlags [c7ta] [c7tb]).1.getD p.1 false).map Prod.snd,
       ([c7tb].enum.filter fun p => !(dupFlags [c7ta] [c7tb]).2.getD p.1 false).map Prod.snd) :=
  c7_remove_duplicate_spec [c7ta] [c7tb] 0 0 (by decide) (by decide)

/-! ## Claim C4: linear assignment contract -/

theorem la_rows_zero (solver : SolverOracle) (M : Mat) (thresh : ℚ) (h : M.rows = 0) :
    linear_assignment solver M thresh = ⟨[], [], List.range M.cols⟩ := by
  unfold linear_assignment
  rw [if_pos h]

theorem la_cols_zero (solver : SolverOracle) (M : Mat) (thresh : ℚ)
    (h : M.rows ≠ 0) (h2 : M.cols = 0) :
    linear_assignment solver M thresh = ⟨[], List.range M.rows, []⟩ := by
  unfold linear_assignment
  rw [if_neg h, if_pos h2]

theorem la_matched_mem (solver : SolverOracle) (M : Mat) (thresh : ℚ) (p : ℕ × ℕ)
    (hp : p ∈ (linear_assignment solver M thresh).matched_pairs) :
    p.1 < M.rows ∧ p.2 < M.cols ∧ M.entry p.1 p.2 ≤ thresh := by
  unfold linear_assignment at hp
  dsimp only at hp
  split at hp
  · simp at hp
  · split at hp
    · simp at hp
    · split at hp
      · dsimp only at hp
        rcases List.mem_filter.mp hp with ⟨_, hq⟩
        simp only [Bool.and_eq_true, decide_eq_true_eq] at hq
        exact ⟨hq.1.1, hq.1.2, hq.2⟩
      · simp at hp

theorem la_matched_fst_nodup (solver : SolverOracle) (M : Mat) (thresh : ℚ) :
    ((linear_assignment solver M thresh).matched_pairs.map Prod.fst).Nodup := by
  unfold linear_assignment
  dsimp only
  split
  · simp
  · split
    · simp
    · split
      · dsimp only
        rename_i rtc _
        have hsub : ((rtc.enum.filter fun p =>
            decide (p.1 < M.rows) && decide (p.2 < M.cols) &&
              decide (M.entry p.1 p.2 ≤ thresh)).map Prod.fst).Sublist
            (rtc.enum.map Prod.fst) :=
          (List.filter_sublist _).map Prod.fst
        rw [List.enum_map_fst] at hsub
        exact (List.nodup_range _).sublist hsub
      · simp

theorem la_unmatched_nodup (solver : SolverOracle) (M : Mat) (thresh : ℚ) :
    (linear_assignment solver M thresh).unmatched_tracks.Nodup := by
  unfold linear_assignment
  dsimp only
  split
  · simp
  · split
    · exact List.nodup_range _
    · split
      · dsimp only
        rename_i rtc _
        have hsub : ((rtc.enum.filter fun p =>
            decide (p.1 < M.rows) &&
              (decide (M.cols ≤ p.2) || decide (thresh < M.entry p.1 p.2))).map
              Prod.fst).Sublist (rtc.enum.map Prod.fst) :=
          (List.filter_sublist _).map Prod.fst
        rw [List.enum_map_fst] at hsub
        exact (List.nodup_range _).sublist hsub
      · exact List.nodup_range _

theorem la_unmatched_lt (solver : SolverOracle) (M : Mat) (thresh : ℚ) (i : ℕ)
    (hi : i ∈ (linear_assignment solver M thresh).unmatched_tracks) : i < M.rows := by
  unfold linear_assignment at hi
  dsimp only at hi
  split at hi
  · simp at hi
  · split at hi
    · exact List.mem_range.mp hi
    · split at hi
      · dsimp only at hi
        rcases List.mem_map.mp hi with ⟨p, hp, rfl⟩
        rcases List.mem_filter.mp hp with ⟨_, hq⟩
        simp only [Bool.and_eq_true, decide_eq_true_eq] at hq
        exact hq.1
      · exact List.mem_range.mp hi

theorem la_disjoint_rows (solver : SolverOracle) (M : Mat) (thresh : ℚ) (i : ℕ)
    (h1 : i ∈ (linear_assignment solver M thresh).matched_pairs.map Prod.fst)
    (h2 : i ∈ (linear_assignment solver M thresh).unmatched_tracks) : False := by
  unfold linear_assignment at h1 h2
  dsimp only at h1 h2
  by_cases hr : M.rows = 0
  · rw [if_pos hr] at h1
    simp at h1
  · rw [if_neg hr] at h1 h2
    by_cases hc : M.cols = 0
    · rw [if_pos hc] at h1
      simp at h1
    · rw [if_neg hc] at h1 h2
      cases hsolve : solver (max M.rows M.cols)
          fun i j => if i < M.rows ∧ j < M.cols then M.entry i j else 1000000 with
      | error e =>
          rw [hsolve] at h1
          simp at h1
      | ok rtc =>
        rw [hsolve] at h1 h2
        dsimp only at h1 h2
        rcases List.mem_map.mp h1 with ⟨p, hp, hpi⟩
        rcases List.mem_map.mp h2 with ⟨p2, hp2, hpi2⟩
        rcases List.mem_filter.mp hp with ⟨hpe, hq⟩
        rcases List.mem_filter.mp hp2 with ⟨hpe2, hq2⟩
        simp only [Bool.and_eq_true, Bool.or_eq_true, decide_eq_true_eq] at hq hq2
        have he1 := (List.mem_enum_iff_getElem? (x := p)).mp hpe
        have he2 := (List.mem_enum_iff_getElem? (x := p2)).mp hpe2
        have hfst : p.1 = p2.1 := hpi.trans hpi2.symm
        rw [hfst] at he1
        rw [he1] at he2
        have hsnd : p.2 = p2.2 := Option.some_injective _ he2
        rcases hq2.2 with hcol | hcol
        · rw [← hsnd] at hcol
          exact absurd hq.1.2 (not_lt.mpr hcol)
        · rw [← hsnd, ← hfst] at hcol
          exact absurd hq.2 (not_le.mpr hcol)

theorem la_matched_snd_nodup (solver : SolverOracle) (M : Mat) (thresh : ℚ)
    (hsolver : ∀ n f l, solver n f = Except.ok l → l.Nodup) :
    ((linear_assignment solver M thresh).matched_pairs.map Prod.snd).Nodup := by
  unfold linear_assignment
  dsimp only
  split
  · simp
  · split
    · simp
    · split
      · dsimp only
        rename_i rtc heq
        have hsub : ((rtc.enum.filter fun p =>
            decide (p.1 < M.rows) && decide (p.2 < M.cols) &&
              decide (M.entry p.1 p.2 ≤ thresh)).map Prod.snd).Sublist
            (rtc.enum.map Prod.snd) :=
          (List.filter_sublist _).map Prod.snd
        rw [List.enum_map_snd] at hsub
        exact (hsolver _ _ rtc heq).sublist hsub
      · simp

/-- Claim C4: the `linear_assignment` contract.  The zero-dimension cases
short-circuit with everything on the non-empty side unmatched; every accepted
pair lies within the original dimensions with cost at most the threshold; no
row index repeats among the matches; and — given the `lapjv` contract that a
successful solve returns an assignment without repeated columns — no column
index repeats either. -/
theorem c4_linear_assignment_contract (solver : SolverOracle) (M : Mat) (thresh : ℚ)
    (hsolver : ∀ n f l, solver n f = Except.ok l → l.Nodup) :
    (M.rows = 0 → linear_assignment solver M thresh = ⟨[], [], List.range M.cols⟩) ∧
    (M.rows ≠ 0 → M.cols = 0 →
      linear_assignment solver M thresh = ⟨[], List.range M.rows, []⟩) ∧
    (∀ p ∈ (linear_assignment solver M thresh).matched_pairs,
      p.1 < M.rows ∧ p.2 < M.cols ∧ M.entry p.1 p.2 ≤ thresh) ∧
    ((linear_assignment solver M thresh).matched_pairs.map Prod.fst).Nodup ∧
    ((linear_assignment solver M thresh).matched_pairs.map Prod.snd).Nodup :=
  ⟨la_rows_zero solver M thresh, la_cols_zero solver M thresh,
   fun p hp => la_matched_mem solver M thresh p hp,
   la_matched_fst_nodup solver M thresh,
   la_matched_snd_nodup solver M thresh hsolver⟩

/-- Witness for C4 at a concrete 1x1 matrix and the identity-assignment
solver. -/
theorem c4_witness :
    ((⟨1, 1, fun _ _ => 0⟩ : Mat).rows = 0 →
      linear_assignment (fun n _ => Except.ok (List.range n)) ⟨1, 1, fun _ _ => 0⟩ 1
        = ⟨[], [], List.range (⟨1, 1, fun _ _ => 0⟩ : Mat).cols⟩) ∧
    ((⟨1, 1, fun _ _ => 0⟩ : Mat).rows ≠ 0 → (⟨1, 1, fun _ _ => 0⟩ : Mat).cols = 0 →
      linear_assignment (fun n _ => Except.ok (List.range n)) ⟨1, 1, fun _ _ => 0⟩ 1
        = ⟨[], List.range (⟨1, 1, fun _ _ => 0⟩ : Mat).rows, []⟩) ∧
    (∀ p ∈ (linear_assignment (fun n _ => Except.ok (List.range n))
        ⟨1, 1, fun _ _ => 0⟩ 1).matched_pairs,
      p.1 < (⟨1, 1, fun _ _ => 0⟩ : Mat).rows ∧ p.2 < (⟨1, 1, fun _ _ => 0⟩ : Mat).cols ∧
        (⟨1, 1, fun _ _ => 0⟩ : Mat).entry p.1 p.2 ≤ 1) ∧
    ((linear_assignment (fun n _ => Except.ok (List.range n))
        ⟨1, 1, fun _ _ => 0⟩ 1).matched_pairs.map Prod.fst).Nodup ∧
    ((linear_assignment (fun n _ => Except.ok (List.range n))
        ⟨1, 1, fun _ _ => 0⟩ 1).matched_pairs.map Prod.snd).Nodup :=
  c4_linear_assignment_contract (fun n _ => Except.ok (List.range n))
    ⟨1, 1, fun _ _ => 0⟩ 1
    (fun n _ l h => by
      injection h with h2
      rw [← h2]
      exact List.nodup_range n)

/-! ## Claim C5: detection split by score -/

theorem splitDets_fold (thresh : ℚ) (dets : List Detection) :
    ∀ acc : List Detection × List Detection,
      dets.foldl
        (fun acc det =>
          if thresh ≤ det.score then (acc.1 ++ [det], acc.2)
          else if 1 / 10 < det.score then (acc.1, acc.2 ++ [det])
          else acc) acc =
      (acc.1 ++ dets.filter fun d => decide (thresh ≤ d.score),
       acc.2 ++ dets.filter fun d => decide (1 / 10 < d.score) && decide (d.score < thresh)) := by
  induction dets with
  | nil => intro acc; simp
  | cons d rest ih =>
      intro acc
      rw [List.foldl_cons]
      by_cases h1 : thresh ≤ d.score
      · rw [if_pos h1, ih]
        have hp : (decide (thresh ≤ d.score)) = true := decide_eq_true h1
        have hq : (decide (1 / 10 < d.score) && decide (d.score < thresh)) = false := by
          have : ¬(d.score < thresh) := not_lt.mpr h1
          simp [this]
        rw [List.filter_cons, List.filter_cons, hp, hq]
        simp
      · rw [if_neg h1]
        by_cases h2 : 1 / 10 < d.score
        · rw [if_pos h2, ih]
          have hp : (decide (thresh ≤ d.score)) = false := decide_eq_false h1
          have hq : (decide (1 / 10 < d.score) && decide (d.score < thresh)) = true := by
            have hlt : d.score < thresh := not_le.mp h1
            rw [decide_eq_true h2, decide_eq_true hlt]
            rfl
          rw [List.filter_cons, List.filter_cons, hp, hq]
          simp
        · rw [if_neg h2, ih]
          have hp : (decide (thresh ≤ d.score)) = false := decide_eq_false h1
          have hq : (decide (1 / 10 < d.score) && decide (d.score < thresh)) = false := by
            rw [decide_eq_false h2, Bool.false_and]
          rw [List.filter_cons, List.filter_cons, hp, hq]
          simp

theorem splitDets_eq (thresh : ℚ) (dets : List Detection) :
    splitDets thresh dets =
      (dets.filter fun d => decide (thresh ≤ d.score),
       dets.filter fun d => decide (1 / 10 < d.score) && decide (d.score < thresh)) := by
  unfold splitDets
  rw [splitDets_fold]
  simp

theorem splitDets_drop (thresh : ℚ) (hth : 1 / 10 < thresh) (dets : List Detection) :
    splitDets thresh (dets.filter fun d => decide (1 / 10 < d.score)) =
      splitDets thresh dets := by
  rw [splitDets_eq, splitDets_eq]
  rw [List.filter_filter, List.filter_filter]
  rw [Prod.mk.injEq]
  constructor
  · apply List.filter_congr
    intro d _
    by_cases h : thresh ≤ d.score
    · rw [decide_eq_true h, Bool.true_and]
      exact decide_eq_true (lt_of_lt_of_le hth h)
    · rw [decide_eq_false h, Bool.false_and]
  · apply List.filter_congr
    intro d _
    by_cases h : 1 / 10 < d.score
    · rw [decide_eq_true h]
      simp only [Bool.true_and, Bool.and_true]
    · rw [decide_eq_false h]
      simp only [Bool.false_and, Bool.and_false]

/-- Claim C5 (amended with `track_thresh > 0.1`): the high-score list fed to
the first association is exactly the detections with `score >= track_thresh`,
the low-score list fed to the second association is exactly those with
`0.1 < score < track_thresh`, and detections with `score <= 0.1` are silently
discarded: removing them from the input does not change the update at all. -/
theorem c5_detection_split (s : BYTETracker) (solver : SolverOracle)
    (dets : List Detection) (hth : 1 / 10 < s.config.track_thresh) :
    (splitDets s.config.track_thresh dets).1 =
      (dets.filter fun d => decide (s.config.track_thresh ≤ d.score)) ∧
    (splitDets s.config.track_thresh dets).2 =
      (dets.filter fun d =>
        decide (1 / 10 < d.score) && decide (d.score < s.config.track_thresh)) ∧
    s.update solver (dets.filter fun d => decide (1 / 10 < d.score)) =
      s.update solver dets := by
  refine ⟨by rw [splitDets_eq], by rw [splitDets_eq], ?_⟩
  unfold BYTETracker.update
  rw [splitDets_drop s.config.track_thresh hth dets]

/-- Witness for C5 at the default configuration and a two-detection input. -/
theorem c5_witness :
    (splitDets (BYTETracker.new TrackerConfig.default).config.track_thresh
        [⟨Rect.new 0 0 1 1, 3 / 4⟩, ⟨Rect.new 2 2 1 1, 1 / 20⟩]).1 =
      ([⟨Rect.new 0 0 1 1, 3 / 4⟩, ⟨Rect.new 2 2 1 1, 1 / 20⟩].filter fun d =>
        decide ((BYTETracker.new TrackerConfig.default).config.track_thresh ≤ d.score)) ∧
    (splitDets (BYTETracker.new TrackerConfig.default).config.track_thresh
        [⟨Rect.new 0 0 1 1, 3 / 4⟩, ⟨Rect.new 2 2 1 1, 1 / 20⟩]).2 =
      ([⟨Rect.new 0 0 1 1, 3 / 4⟩, ⟨Rect.new 2 2 1 1, 1 / 20⟩].filter fun d =>
        decide (1 / 10 < d.score) &&
          decide (d.score < (BYTETracker.new TrackerConfig.default).config.track_thresh)) ∧
    (BYTETracker.new TrackerConfig.default).update (fun n _ => Except.ok (List.range n))
        ([⟨Rect.new 0 0 1 1, 3 / 4⟩, ⟨Rect.new 2 2 1 1, 1 / 20⟩].filter fun d =>
          decide (1 / 10 < d.score)) =
      (BYTETracker.new TrackerConfig.default).update (fun n _ => Except.ok (List.range n))
        [⟨Rect.new 0 0 1 1, 3 / 4⟩, ⟨Rect.new 2 2 1 1, 1 / 20⟩] :=
  c5_detection_split (BYTETracker.new TrackerConfig.default)
    (fun n _ => Except.ok (List.range n))
    [⟨Rect.new 0 0 1 1, 3 / 4⟩, ⟨Rect.new 2 2 1 1, 1 / 20⟩] (by norm_num [BYTETracker.new, TrackerConfig.default])

/-- The identity-assignment oracle used for the C5 counterexample. -/
def c5solver : SolverOracle := fun n _ => Except.ok (List.range n)

/-- A configuration whose `track_thresh` lies below the `0.1` floor (finite
thresholds, positive buffer and frame rate: valid by the spec's own rules). -/
def c5cfg : TrackerConfig := ⟨1 / 20, 19 / 20, 30, 30⟩

/-- Frame-1 detection: high confidence. -/
def c5d1 : Detection := ⟨Rect.new 0 0 10 10, 9 / 10⟩

/-- Frame-2 detection: same box, score `0.08 <= 0.1` — yet above
`track_thresh = 0.05`, so the code routes it into the first association. -/
def c5d2 : Detection := ⟨Rect.new 0 0 10 10, 2 / 25⟩

/-- The tracker after frame 1 (one confirmed track). -/
def c5s1 : BYTETracker := ((BYTETracker.new c5cfg).update c5solver [c5d1]).1

/-- Claim C5 (fails as stated, without the `track_thresh > 0.1` proviso): on
a reachable tracker with `track_thresh = 0.05`, the detection `c5d2` with
score `0.08 <= 0.1` is NOT discarded — it is matched to the existing track
(the returned track carries its score), whereas without it the frame returns
no track. -/
theorem c5_counterexample :
    c5d2.score ≤ 1 / 10 ∧
    Reachable c5s1 ∧
    (c5s1.update c5solver [c5d2]).2.length = 1 ∧
    ((c5s1.update c5solver [c5d2]).2.getD 0 default).score = c5d2.score ∧
    (c5s1.update c5solver []).2.length = 0 :=
  ⟨by norm_num [c5d2], Reachable.update _ _ _ (Reachable.new c5cfg),
   by with_unfolding_all decide, by with_unfolding_all decide,
   by with_unfolding_all decide⟩

/-! ## Claims C1 and C2: tracker invariants

Field-preservation facts for the track operations, then characterizations of
the update pipeline's phases, then the inductive invariant. -/

theorem predict_fields (t : STrack) (kf : KalmanFilter) :
    (t.predict kf).track_id = t.track_id ∧ (t.predict kf).state = t.state ∧
    (t.predict kf).is_activated = t.is_activated := by
  rcases t with ⟨id, st, act, sc, fid, sf, tl, mn, cv, bx⟩
  cases mn <;> cases cv <;> simp [STrack.predict]

theorem strack_update_fields (t nt : STrack) (kf : KalmanFilter) (f : ℕ) :
    (t.update nt kf f).track_id = t.track_id ∧
    (t.update nt kf f).state = TrackState.Tracked := by
  rcases t with ⟨id, st, act, sc, fid, sf, tl, mn, cv, bx⟩
  cases mn <;> cases cv <;> simp [STrack.update]

theorem re_activate_fields (t nt : STrack) (kf : KalmanFilter) (f : ℕ) (c : ℕ) :
    ((t.re_activate nt kf f false c).1).track_id = t.track_id ∧
    ((t.re_activate nt kf f false c).1).state = TrackState.Tracked := by
  rcases t with ⟨id, st, act, sc, fid, sf, tl, mn, cv, bx⟩
  cases mn <;> cases cv <;> simp [STrack.re_activate]

theorem activate_fields (t : STrack) (kf : KalmanFilter) (f : ℕ) (c : ℕ) :
    ((t.activate kf f c).1).track_id = c + 1 ∧ (t.activate kf f c).2 = c + 1 ∧
    ((t.activate kf f c).1).state = TrackState.Tracked := by
  rcases t with ⟨id, st, act, sc, fid, sf, tl, mn, cv, bx⟩
  simp [STrack.activate]

theorem mark_lost_fields (t : STrack) :
    (t.mark_lost).track_id = t.track_id ∧ (t.mark_lost).state = TrackState.Lost :=
  ⟨rfl, rfl⟩

theorem mark_removed_fields (t : STrack) :
    (t.mark_removed).track_id = t.track_id ∧
    (t.mark_removed).state = TrackState.Removed :=
  ⟨rfl, rfl⟩

theorem multi_predict_map_track_id (l : List STrack) (kf : KalmanFilter) :
    (STrack.multi_predict l kf).map STrack.track_id = l.map STrack.track_id := by
  unfold STrack.multi_predict
  rw [List.map_map]
  exact List.map_congr_left fun t _ => (predict_fields t kf).1

theorem multi_predict_length (l : List STrack) (kf : KalmanFilter) :
    (STrack.multi_predict l kf).length = l.length := by
  unfold STrack.multi_predict
  exact List.length_map l _

theorem mem_multi_predict (l : List STrack) (kf : KalmanFilter) (t : STrack)
    (h : t ∈ STrack.multi_predict l kf) : ∃ u ∈ l, t = u.predict kf := by
  rcases List.mem_map.mp h with ⟨u, hu, rfl⟩
  exact ⟨u, hu, rfl⟩

theorem jointAux_mem (l : List STrack) :
    ∀ (seen : List ℕ) (acc : List STrack) (t : STrack),
      t ∈ jointAux seen acc l → t ∈ acc ∨ t ∈ l := by
  induction l with
  | nil => intro seen acc t h; exact Or.inl h
  | cons x xs ih =>
      intro seen acc t h
      simp only [jointAux] at h
      split at h
      · rcases ih _ _ _ h with h2 | h2
        · exact Or.inl h2
        · exact Or.inr (List.mem_cons_of_mem x h2)
      · rcases ih _ _ _ h with h2 | h2
        · rcases List.mem_append.mp h2 with h3 | h3
          · exact Or.inl h3
          · refine Or.inr ?_
            rw [List.mem_singleton] at h3
            rw [h3]
            exact List.mem_cons_self _ _
        · exact Or.inr (List.mem_cons_of_mem x h2)

theorem jointAux_nodup (l : List STrack) :
    ∀ (seen : List ℕ) (acc : List STrack),
      (acc.map STrack.track_id).Nodup →
      (∀ i ∈ acc.map STrack.track_id, i ∈ seen) →
      ((jointAux seen acc l).map STrack.track_id).Nodup := by
  induction l with
  | nil => intro seen acc h _; exact h
  | cons x xs ih =>
      intro seen acc hnd hsub
      simp only [jointAux]
      split
      · exact ih seen acc hnd hsub
      · rename_i hxseen
        refine ih (seen ++ [x.track_id]) (acc ++ [x]) ?_ ?_
        · rw [List.map_append]
          rw [List.nodup_append]
          refine ⟨hnd, List.nodup_singleton _, ?_⟩
          intro i hi hmem
          rcases List.mem_singleton.mp hmem with rfl
          exact hxseen (hsub _ hi)
        · intro i hi
          rw [List.map_append] at hi
          rcases List.mem_append.mp hi with h2 | h2
          · exact List.mem_append.mpr (Or.inl (hsub _ h2))
          · exact List.mem_append.mpr (Or.inr h2)

theorem joint_stracks_mem (a b : List STrack) (t : STrack)
    (h : t ∈ joint_stracks a b) : t ∈ a ∨ t ∈ b :=
  jointAux_mem b _ a t h

theorem joint_stracks_nodup (a b : List STrack)
    (h : (a.map STrack.track_id).Nodup) :
    ((joint_stracks a b).map STrack.track_id).Nodup :=
  jointAux_nodup b _ a h (fun _ hi => hi)

theorem sub_stracks_mem (a b : List STrack) (t : STrack)
    (h : t ∈ sub_stracks a b) :
    t ∈ a ∧ t.track_id ∉ b.map STrack.track_id := by
  rcases List.mem_filter.mp h with ⟨h1, h2⟩
  rw [decide_eq_true_eq] at h2
  exact ⟨h1, h2⟩

theorem sub_stracks_sublist (a b : List STrack) :
    (sub_stracks a b).Sublist a :=
  List.filter_sublist a

theorem getD_mem_of_lt (l : List STrack) (i : ℕ) (h : i < l.length) :
    l.getD i default ∈ l := by
  rw [List.getD_eq_getElem l default h]
  exact List.getElem_mem h

theorem nodup_map_getD_track_id (pool : List STrack) (idxs : List ℕ)
    (hpool : (pool.map STrack.track_id).Nodup) (hidx : idxs.Nodup)
    (hlt : ∀ i ∈ idxs, i < pool.length) :
    ((idxs.map fun i => pool.getD i default).map STrack.track_id).Nodup := by
  rw [List.map_map]
  refine List.Nodup.map_on ?_ hidx
  intro i hi j hj hij
  have hi' := hlt i hi
  have hj' := hlt j hj
  simp only [Function.comp] at hij
  have hpool2 : pool.Nodup := hpool.of_map
  have hji : pool.getD i default = pool.getD j default :=
    List.inj_on_of_nodup_map hpool (getD_mem_of_lt pool i hi')
      (getD_mem_of_lt pool j hj') hij
  rw [List.getD_eq_getElem pool default hi', List.getD_eq_getElem pool default hj'] at hji
  exact (List.Nodup.getElem_inj_iff hpool2).mp hji

theorem track_id_getD_mem_map (pool : List STrack) (i : ℕ) (h : i < pool.length) :
    (pool.getD i default).track_id ∈ pool.map STrack.track_id :=
  List.mem_map.mpr ⟨pool.getD i default, getD_mem_of_lt pool i h, rfl⟩

theorem filterMap_ite_sublist {α β : Type} (l : List α) (p : α → Bool) (g : α → β) :
    (l.filterMap fun a => if p a then some (g a) else none).Sublist (l.map g) := by
  induction l with
  | nil => exact List.Sublist.refl _
  | cons x xs ih =>
      rw [List.filterMap_cons, List.map_cons]
      by_cases h : p x
      · rw [if_pos h]
        exact List.Sublist.cons₂ (g x) ih
      · rw [if_neg h]
        exact List.Sublist.cons (g x) ih

/-- The match-processing fold appends, per match, exactly one track to one of
the two accumulators. -/
theorem process_matches_eq (pool dets : List STrack) (kf : KalmanFilter)
    (frame_id counter : ℕ) (ms : List (ℕ × ℕ)) :
    ∀ acc : List STrack × List STrack,
      process_matches pool dets kf frame_id counter ms acc =
        (acc.1 ++ ms.filterMap fun m =>
          if (pool.getD m.1 default).state = TrackState.Tracked then
            some ((pool.getD m.1 default).update (dets.getD m.2 default) kf frame_id)
          else none,
         acc.2 ++ ms.filterMap fun m =>
          if (pool.getD m.1 default).state = TrackState.Tracked then none
          else some (((pool.getD m.1 default).re_activate (dets.getD m.2 default)
            kf frame_id false counter).1)) := by
  induction ms with
  | nil => intro acc; simp [process_matches]
  | cons m rest ih =>
      intro acc
      unfold process_matches
      rw [List.foldl_cons]
      have step := ih
      unfold process_matches at step
      by_cases h : (pool.getD m.1 default).state = TrackState.Tracked
      · rw [if_pos h, step]
        rw [List.filterMap_cons, List.filterMap_cons, if_pos h, if_pos h]
        simp
      · rw [if_neg h, step]
        rw [List.filterMap_cons, List.filterMap_cons, if_neg h, if_neg h]
        simp

/-- Elements appended by the match-processing fold: each comes from a match
`m`, carries the pool entry's id, and is in state `Tracked`. -/
theorem process_matches_new_mem (pool dets : List STrack) (kf : KalmanFilter)
    (frame_id counter : ℕ) (ms : List (ℕ × ℕ)) (acc : List STrack × List STrack)
    (t : STrack)
    (h : t ∈ (process_matches pool dets kf frame_id counter ms acc).1 ++
         (process_matches pool dets kf frame_id counter ms acc).2) :
    t ∈ acc.1 ++ acc.2 ∨
    ∃ m ∈ ms, t.track_id = (pool.getD m.1 default).track_id ∧
      t.state = TrackState.Tracked := by
  rw [process_matches_eq] at h
  dsimp only at h
  rcases List.mem_append.mp h with h1 | h1
  · rcases List.mem_append.mp h1 with h2 | h2
    · exact Or.inl (List.mem_append.mpr (Or.inl h2))
    · rcases List.mem_filterMap.mp h2 with ⟨m, hm, hsome⟩
      split at hsome
      · rcases Option.some_injective _ hsome.symm with rfl
        refine Or.inr ⟨m, hm, ?_, ?_⟩
        · exact ((strack_update_fields _ _ kf frame_id).1).symm ▸ rfl
        · exact (strack_update_fields _ _ kf frame_id).2
      · exact absurd hsome (by simp)
  · rcases List.mem_append.mp h1 with h2 | h2
    · exact Or.inl (List.mem_append.mpr (Or.inr h2))
    · rcases List.mem_filterMap.mp h2 with ⟨m, hm, hsome⟩
      split at hsome
      · exact absurd hsome (by simp)
      · rcases Option.some_injective _ hsome.symm with rfl
        refine Or.inr ⟨m, hm, ?_, ?_⟩
        · exact (re_activate_fields _ _ kf frame_id counter).1
        · exact (re_activate_fields _ _ kf frame_id counter).2

theorem mem_filterMap_ite {α β : Type} (l : List α) (p : α → Prop) [DecidablePred p]
    (g : α → β) (x : β) :
    x ∈ l.filterMap (fun a => if p a then some (g a) else none) ↔
      ∃ a ∈ l, p a ∧ g a = x := by
  rw [List.mem_filterMap]
  constructor
  · rintro ⟨a, ha, hsome⟩
    split at hsome
    · exact ⟨a, ha, by assumption, Option.some_injective _ hsome⟩
    · exact absurd hsome (by simp)
  · rintro ⟨a, ha, hp, rfl⟩
    exact ⟨a, ha, by rw [if_pos hp]⟩

theorem mem_filterMap_ite_neg {α β : Type} (l : List α) (p : α → Prop) [DecidablePred p]
    (g : α → β) (x : β) :
    x ∈ l.filterMap (fun a => if p a then none else some (g a)) ↔
      ∃ a ∈ l, ¬p a ∧ g a = x := by
  rw [List.mem_filterMap]
  constructor
  · rintro ⟨a, ha, hsome⟩
    split at hsome
    · exact absurd hsome (by simp)
    · exact ⟨a, ha, by assumption, Option.some_injective _ hsome⟩
  · rintro ⟨a, ha, hp, rfl⟩
    exact ⟨a, ha, by rw [if_neg hp]⟩

theorem filterMap_ite_sublist_prop {α β : Type} (l : List α) (p : α → Prop)
    [DecidablePred p] (g : α → β) :
    (l.filterMap fun a => if p a then some (g a) else none).Sublist (l.map g) := by
  induction l with
  | nil => exact List.Sublist.refl _
  | cons x xs ih =>
      rw [List.filterMap_cons, List.map_cons]
      by_cases h : p x
      · rw [if_pos h]
        exact List.Sublist.cons₂ (g x) ih
      · rw [if_neg h]
        exact List.Sublist.cons (g x) ih

theorem filterMap_ite_neg_sublist_prop {α β : Type} (l : List α) (p : α → Prop)
    [DecidablePred p] (g : α → β) :
    (l.filterMap fun a => if p a then none else some (g a)).Sublist (l.map g) := by
  induction l with
  | nil => exact List.Sublist.refl _
  | cons x xs ih =>
      rw [List.filterMap_cons, List.map_cons]
      by_cases h : p x
      · rw [if_pos h]
        exact List.Sublist.cons (g x) ih
      · rw [if_neg h]
        exact List.Sublist.cons₂ (g x) ih

theorem process_matches_part1_ids (pool dets : List STrack) (kf : KalmanFilter)
    (frame_id counter : ℕ) (ms : List (ℕ × ℕ)) :
    (process_matches pool dets kf frame_id counter ms ([], [])).1.map STrack.track_id
      = ms.filterMap fun m =>
          if (pool.getD m.1 default).state = TrackState.Tracked then
            some ((pool.getD m.1 default).track_id)
          else none := by
  rw [process_matches_eq]
  dsimp only
  rw [List.nil_append, List.map_filterMap]
  apply List.filterMap_congr
  intro m _
  by_cases h : (pool.getD m.1 default).state = TrackState.Tracked
  · rw [if_pos h, if_pos h, Option.map_some']
    rw [(strack_update_fields _ _ kf frame_id).1]
  · rw [if_neg h, if_neg h, Option.map_none']

theorem process_matches_part2_ids (pool dets : List STrack) (kf : KalmanFilter)
    (frame_id counter : ℕ) (ms : List (ℕ × ℕ)) :
    (process_matches pool dets kf frame_id counter ms ([], [])).2.map STrack.track_id
      = ms.filterMap fun m =>
          if (pool.getD m.1 default).state = TrackState.Tracked then none
          else some ((pool.getD m.1 default).track_id) := by
  rw [process_matches_eq]
  dsimp only
  rw [List.nil_append, List.map_filterMap]
  apply List.filterMap_congr
  intro m _
  by_cases h : (pool.getD m.1 default).state = TrackState.Tracked
  · rw [if_pos h, if_pos h, Option.map_none']
  · rw [if_neg h, if_neg h, Option.map_some']
    rw [(re_activate_fields _ _ kf frame_id counter).1]

/-- The new-track initiation fold: the counter never decreases, every
appended track is freshly numbered in `(counter, result counter]` with state
`Tracked`, and the appended ids are pairwise distinct. -/
theorem init_new_tracks_spec (dets_rem : List STrack) (track_thresh : ℚ)
    (kf : KalmanFilter) (frame_id : ℕ) (idxs : List ℕ) :
    ∀ c0 : ℕ,
      c0 ≤ (init_new_tracks dets_rem track_thresh kf frame_id idxs ([], c0)).2 ∧
      (∀ t ∈ (init_new_tracks dets_rem track_thresh kf frame_id idxs ([], c0)).1,
        c0 < t.track_id ∧
        t.track_id ≤ (init_new_tracks dets_rem track_thresh kf frame_id idxs ([], c0)).2 ∧
        t.state = TrackState.Tracked) ∧
      ((init_new_tracks dets_rem track_thresh kf frame_id idxs ([], c0)).1.map
        STrack.track_id).Nodup := by
  have main : ∀ (idxs : List ℕ) (acc : List STrack) (c0 : ℕ),
      (∀ t ∈ acc, t.track_id ≤ c0) → (acc.map STrack.track_id).Nodup →
      (∀ t ∈ acc, t.state = TrackState.Tracked) →
      c0 ≤ (init_new_tracks dets_rem track_thresh kf frame_id idxs (acc, c0)).2 ∧
      (∀ t ∈ (init_new_tracks dets_rem track_thresh kf frame_id idxs (acc, c0)).1,
        t.track_id ≤ (init_new_tracks dets_rem track_thresh kf frame_id idxs (acc, c0)).2 ∧
        t.state = TrackState.Tracked ∧ (t ∈ acc ∨ c0 < t.track_id)) ∧
      ((init_new_tracks dets_rem track_thresh kf frame_id idxs (acc, c0)).1.map
        STrack.track_id).Nodup := by
    intro idxs
    induction idxs with
    | nil =>
        intro acc c0 hb hnd hst
        refine ⟨le_refl c0, ?_, hnd⟩
        intro t ht
        exact ⟨hb t ht, hst t ht, Or.inl ht⟩
    | cons i rest ih =>
        intro acc c0 hb hnd hst
        unfold init_new_tracks
        rw [List.foldl_cons]
        dsimp only
        by_cases hsc : (dets_rem.getD i default).score < track_thresh + 1 / 10
        · rw [if_pos hsc]
          exact ih acc c0 hb hnd hst
        · rw [if_neg hsc]
          have hact := activate_fields (dets_rem.getD i default) kf frame_id c0
          have hnext := ih (acc ++ [((dets_rem.getD i default).activate kf frame_id c0).1])
            (((dets_rem.getD i default).activate kf frame_id c0).2) ?_ ?_ ?_
          · rw [hact.2.1] at hnext
            refine ⟨le_trans (Nat.le_succ c0) hnext.1, ?_, hnext.2.2⟩
            intro t ht
            rcases hnext.2.1 t ht with ⟨h1, h2, h3⟩
            refine ⟨h1, h2, ?_⟩
            rcases h3 with h4 | h4
            · rcases List.mem_append.mp h4 with h5 | h5
              · exact Or.inl h5
              · rw [List.mem_singleton] at h5
                subst h5
                refine Or.inr ?_
                rw [hact.1]
                exact Nat.lt_succ_self c0
            · exact Or.inr (lt_trans (Nat.lt_succ_self c0) h4)
          · intro t ht
            rcases List.mem_append.mp ht with h5 | h5
            · rw [hact.2.1]
              exact le_trans (hb t h5) (Nat.le_succ c0)
            · rw [List.mem_singleton] at h5
              subst h5
              rw [hact.1, hact.2.1]
          · rw [List.map_append]
            rw [List.nodup_append]
            refine ⟨hnd, by simp, ?_⟩
            intro x hx hx2
            simp only [List.map_cons, List.map_nil, List.mem_singleton] at hx2
            rw [hx2, hact.1] at hx
            rcases List.mem_map.mp hx with ⟨u, hu, hu2⟩
            have := hb u hu
            rw [hu2] at this
            exact absurd this (by simp)
          · intro t ht
            rcases List.mem_append.mp ht with h5 | h5
            · exact hst t h5
            · rw [List.mem_singleton] at h5
              subst h5
              exact hact.2.2
  intro c0
  have h := main idxs [] c0 (by simp) (by simp) (by simp)
  refine ⟨h.1, ?_, h.2.2⟩
  intro t ht
  rcases h.2.1 t ht with ⟨h1, h2, h3⟩
  rcases h3 with h4 | h4
  · simp at h4
  · exact ⟨h4, h1, h2⟩

/-- The lost-set sweep appends the surviving tracks to the first accumulator
and the expired ones (marked removed) to the second. -/
theorem sweep_lost_eq (lost : List STrack) (frame_id max_time_lost : ℕ) :
    ∀ acc : List STrack × List STrack,
      sweep_lost lost frame_id max_time_lost acc =
        (acc.1 ++ lost.filter fun t => !decide (max_time_lost < frame_id - t.end_frame),
         acc.2 ++ (lost.filter fun t =>
           decide (max_time_lost < frame_id - t.end_frame)).map STrack.mark_removed) := by
  induction lost with
  | nil => intro acc; simp [sweep_lost]
  | cons x xs ih =>
      intro acc
      unfold sweep_lost
      rw [List.foldl_cons]
      have step := ih
      unfold sweep_lost at step
      by_cases h : max_time_lost < frame_id - x.end_frame
      · rw [if_pos h, step]
        rw [List.filter_cons, List.filter_cons, decide_eq_true h]
        simp
      · rw [if_neg h, step]
        rw [List.filter_cons, List.filter_cons, decide_eq_false h]
        simp

theorem enumFrom_filter_map_snd_sublist {α : Type} (p : ℕ × α → Bool) :
    ∀ (l : List α) (n : ℕ),
      (((List.enumFrom n l).filter p).map Prod.snd).Sublist l := by
  intro l
  induction l with
  | nil => intro n; simp
  | cons x xs ih =>
      intro n
      rw [List.enumFrom_cons, List.filter_cons]
      by_cases h : p (n, x) = true
      · rw [if_pos h, List.map_cons]
        exact List.Sublist.cons₂ x (ih (n + 1))
      · rw [if_neg h]
        exact List.Sublist.cons x (ih (n + 1))

theorem remove_duplicate_sublists (a b : List STrack) :
    ((remove_duplicate_stracks a b).1).Sublist a ∧
    ((remove_duplicate_stracks a b).2).Sublist b := by
  unfold remove_duplicate_stracks
  split
  · exact ⟨List.Sublist.refl a, List.Sublist.refl b⟩
  · constructor
    · exact enumFrom_filter_map_snd_sublist _ a 0
    · exact enumFrom_filter_map_snd_sublist _ b 0

/-! ### Named anatomy of `BYTETracker.update`

Proof-layer names for the phases of the update pipeline; `update_eq` below
shows (definitionally) that `BYTETracker.update` is their composition. -/

namespace Upd

/-- The unconfirmed part of the previous tracked set. -/
def unconf (s : BYTETracker) : List STrack :=
  s.tracked_stracks.filter fun t => !t.is_activated

/-- The predicted pool: confirmed tracked tracks joined with the lost set. -/
def pool (s : BYTETracker) : List STrack :=
  STrack.multi_predict
    (joint_stracks (s.tracked_stracks.filter fun t => t.is_activated) s.lost_stracks)
    s.kalman_filter

/-- High-score detections as fresh tracks. -/
def highDets (s : BYTETracker) (dets : List Detection) : List STrack :=
  ((splitDets s.config.track_thresh dets).1).map fun d => STrack.new d.bbox d.score

/-- Low-score detections as fresh tracks. -/
def lowDets (s : BYTETracker) (dets : List Detection) : List STrack :=
  ((splitDets s.config.track_thresh dets).2).map fun d => STrack.new d.bbox d.score

/-- First association result. -/
def r1 (s : BYTETracker) (solver : SolverOracle) (dets : List Detection) :
    AssignmentResult :=
  linear_assignment solver
    (fuse_score
      (iou_distance ((pool s).map STrack.rect) ((highDets s dets).map STrack.rect))
      ((highDets s dets).map fun t => Detection.from_rect t.rect t.score))
    s.config.match_thresh

/-- Activated/refind accumulators after the first association. -/
def ar1 (s : BYTETracker) (solver : SolverOracle) (dets : List Detection) :
    List STrack × List STrack :=
  process_matches (pool s) (highDets s dets) s.kalman_filter (s.frame_id + 1)
    s.counter (r1 s solver dets).matched_pairs ([], [])

/-- Residual tracked pool entries eligible for the second association. -/
def rTracked (s : BYTETracker) (solver : SolverOracle) (dets : List Detection) :
    List STrack :=
  ((r1 s solver dets).unmatched_tracks.map fun i => (pool s).getD i default).filter
    fun t => decide (t.state = TrackState.Tracked)

/-- Second association result. -/
def r2 (s : BYTETracker) (solver : SolverOracle) (dets : List Detection) :
    AssignmentResult :=
  linear_assignment solver
    (iou_distance ((rTracked s solver dets).map STrack.rect)
      ((lowDets s dets).map STrack.rect)) (1 / 2)

/-- Accumulators after the second association. -/
def ar2 (s : BYTETracker) (solver : SolverOracle) (dets : List Detection) :
    List STrack × List STrack :=
  process_matches (rTracked s solver dets) (lowDets s dets) s.kalman_filter
    (s.frame_id + 1) s.counter (r2 s solver dets).matched_pairs (ar1 s solver dets)

/-- Freshly lost tracks after the second association. -/
def lostNew (s : BYTETracker) (solver : SolverOracle) (dets : List Detection) :
    List STrack :=
  (((r2 s solver dets).unmatched_tracks.map fun i =>
      (rTracked s solver dets).getD i default).filter
    fun t => decide (t.state ≠ TrackState.Lost)).map STrack.mark_lost

/-- High-score detections left unmatched by the first association. -/
def detsRem (s : BYTETracker) (solver : SolverOracle) (dets : List Detection) :
    List STrack :=
  (r1 s solver dets).unmatched_detections.map fun i => (highDets s dets).getD i default

/-- Unconfirmed association result. -/
def r3 (s : BYTETracker) (solver : SolverOracle) (dets : List Detection) :
    AssignmentResult :=
  linear_assignment solver
    (fuse_score
      (iou_distance ((unconf s).map STrack.rect) ((detsRem s solver dets).map STrack.rect))
      ((detsRem s solver dets).map fun t => Detection.from_rect t.rect t.score)) (7 / 10)

/-- Unconfirmed tracks promoted by a match. -/
def actUnc (s : BYTETracker) (solver : SolverOracle) (dets : List Detection) :
    List STrack :=
  (r3 s solver dets).matched_pairs.map fun m =>
    ((unconf s).getD m.1 default).update ((detsRem s solver dets).getD m.2 default)
      s.kalman_filter (s.frame_id + 1)

/-- Unconfirmed tracks dropped for lack of a match. -/
def removedUnc (s : BYTETracker) (solver : SolverOracle) (dets : List Detection) :
    List STrack :=
  ((r3 s solver dets).unmatched_tracks.map fun i => (unconf s).getD i default).map
    STrack.mark_removed

/-- Newly initiated tracks with the advanced counter. -/
def initNew (s : BYTETracker) (solver : SolverOracle) (dets : List Detection) :
    List STrack × ℕ :=
  init_new_tracks (detsRem s solver dets) s.config.track_thresh s.kalman_filter
    (s.frame_id + 1) (r3 s solver dets).unmatched_detections ([], s.counter)

/-- Lost-set sweep result (fresh lost plus survivors; removals). -/
def sweep (s : BYTETracker) (solver : SolverOracle) (dets : List Detection) :
    List STrack × List STrack :=
  sweep_lost s.lost_stracks (s.frame_id + 1) s.max_time_lost
    (lostNew s solver dets, removedUnc s solver dets)

/-- The reconciled tracked set before deduplication. -/
def tracked1 (s : BYTETracker) (solver : SolverOracle) (dets : List Detection) :
    List STrack :=
  ((ar2 s solver dets).1 ++ actUnc s solver dets ++ (initNew s solver dets).1 ++
    (ar2 s solver dets).2).filter fun t => decide (t.state = TrackState.Tracked)

/-- The reconciled lost set before deduplication. -/
def lost1 (s : BYTETracker) (solver : SolverOracle) (dets : List Detection) :
    List STrack :=
  sub_stracks (sweep s solver dets).1 (tracked1 s solver dets)

/-- The deduplicated final sets. -/
def dedup (s : BYTETracker) (solver : SolverOracle) (dets : List Detection) :
    List STrack × List STrack :=
  remove_duplicate_stracks (tracked1 s solver dets) (lost1 s solver dets)

/-- Embeds `BYTETracker.update` is definitionally the composition of the named
phases. -/
theorem update_eq (s : BYTETracker) (solver : SolverOracle) (dets : List Detection) :
    s.update solver dets =
      ({ s with
          tracked_stracks := (dedup s solver dets).1
          lost_stracks := (dedup s solver dets).2
          removed_stracks := s.removed_stracks ++ (sweep s solver dets).2
          frame_id := s.frame_id + 1
          counter := (initNew s solver dets).2 },
       (dedup s solver dets).1.filter fun t => t.is_activated) := rfl

end Upd

namespace Upd

theorem tracked_ids_nodup (s : BYTETracker)
    (hnd : ((s.tracked_stracks ++ s.lost_stracks).map STrack.track_id).Nodup) :
    (s.tracked_stracks.map STrack.track_id).Nodup := by
  rw [List.map_append] at hnd
  exact (List.nodup_append.mp hnd).1

theorem lost_ids_nodup (s : BYTETracker)
    (hnd : ((s.tracked_stracks ++ s.lost_stracks).map STrack.track_id).Nodup) :
    (s.lost_stracks.map STrack.track_id).Nodup := by
  rw [List.map_append] at hnd
  exact (List.nodup_append.mp hnd).2.1

theorem tracked_lost_ids_disjoint (s : BYTETracker)
    (hnd : ((s.tracked_stracks ++ s.lost_stracks).map STrack.track_id).Nodup)
    (x : ℕ) (h1 : x ∈ s.tracked_stracks.map STrack.track_id)
    (h2 : x ∈ s.lost_stracks.map STrack.track_id) : False := by
  rw [List.map_append] at hnd
  exact (List.nodup_append.mp hnd).2.2 h1 h2

theorem pool_nodup (s : BYTETracker)
    (hnd : ((s.tracked_stracks ++ s.lost_stracks).map STrack.track_id).Nodup) :
    ((pool s).map STrack.track_id).Nodup := by
  unfold pool
  rw [multi_predict_map_track_id]
  apply joint_stracks_nodup
  have hsub : ((s.tracked_stracks.filter fun t => t.is_activated).map
      STrack.track_id).Sublist (s.tracked_stracks.map STrack.track_id) :=
    (List.filter_sublist _).map _
  exact (tracked_ids_nodup s hnd).sublist hsub

theorem pool_source (s : BYTETracker) (t : STrack) (ht : t ∈ pool s) :
    ∃ u, (u ∈ s.tracked_stracks.filter (fun t => t.is_activated) ∨
        u ∈ s.lost_stracks) ∧
      t.track_id = u.track_id ∧ t.state = u.state := by
  unfold pool at ht
  rcases mem_multi_predict _ _ _ ht with ⟨u, hu, rfl⟩
  rcases joint_stracks_mem _ _ _ hu with h | h
  · exact ⟨u, Or.inl h, (predict_fields u _).1, (predict_fields u _).2.1⟩
  · exact ⟨u, Or.inr h, (predict_fields u _).1, (predict_fields u _).2.1⟩

theorem pool_bound (s : BYTETracker)
    (hbound : ∀ t ∈ s.tracked_stracks ++ s.lost_stracks, t.track_id ≤ s.counter)
    (t : STrack) (ht : t ∈ pool s) : t.track_id ≤ s.counter := by
  rcases pool_source s t ht with ⟨u, hu, hid, _⟩
  rw [hid]
  rcases hu with h | h
  · exact hbound u (List.mem_append.mpr (Or.inl (List.mem_of_mem_filter h)))
  · exact hbound u (List.mem_append.mpr (Or.inr h))

theorem pool_id_mem (s : BYTETracker) (t : STrack) (ht : t ∈ pool s) :
    t.track_id ∈ s.tracked_stracks.map STrack.track_id ∨
    t.track_id ∈ s.lost_stracks.map STrack.track_id := by
  rcases pool_source s t ht with ⟨u, hu, hid, _⟩
  rw [hid]
  rcases hu with h | h
  · exact Or.inl (List.mem_map.mpr ⟨u, List.mem_of_mem_filter h, rfl⟩)
  · exact Or.inr (List.mem_map.mpr ⟨u, h, rfl⟩)

theorem pool_tracked_id_mem (s : BYTETracker)
    (hlst : ∀ t ∈ s.lost_stracks, t.state = TrackState.Lost)
    (t : STrack) (ht : t ∈ pool s) (hstate : t.state = TrackState.Tracked) :
    t.track_id ∈ s.tracked_stracks.map STrack.track_id := by
  rcases pool_source s t ht with ⟨u, hu, hid, hst⟩
  rcases hu with h | h
  · rw [hid]
    exact List.mem_map.mpr ⟨u, List.mem_of_mem_filter h, rfl⟩
  · exfalso
    rw [hstate] at hst
    rw [hlst u h] at hst
    exact TrackState.noConfusion hst

theorem unconf_id_mem (s : BYTETracker) (x : ℕ)
    (h : x ∈ (unconf s).map STrack.track_id) :
    x ∈ s.tracked_stracks.map STrack.track_id := by
  rcases List.mem_map.mp h with ⟨t, ht, rfl⟩
  exact List.mem_map.mpr ⟨t, List.mem_of_mem_filter ht, rfl⟩

theorem unconf_nodup (s : BYTETracker)
    (hnd : ((s.tracked_stracks ++ s.lost_stracks).map STrack.track_id).Nodup) :
    ((unconf s).map STrack.track_id).Nodup := by
  have hsub : ((unconf s).map STrack.track_id).Sublist
      (s.tracked_stracks.map STrack.track_id) := (List.filter_sublist _).map _
  exact (tracked_ids_nodup s hnd).sublist hsub

theorem unconf_pool_ids_disjoint (s : BYTETracker)
    (hnd : ((s.tracked_stracks ++ s.lost_stracks).map STrack.track_id).Nodup)
    (x : ℕ) (h1 : x ∈ (unconf s).map STrack.track_id)
    (h2 : x ∈ (pool s).map STrack.track_id) : False := by
  rcases List.mem_map.mp h1 with ⟨t1, ht1, rfl⟩
  rcases List.mem_map.mp h2 with ⟨t2, ht2, hid⟩
  rcases pool_id_mem s t2 ht2 with h3 | h3
  · -- the pool id lies in the previous tracked set: compare with the
    -- unconfirmed entry through nodup of the tracked ids
    rw [hid] at h3
    rcases List.mem_map.mp h3 with ⟨t3, ht3, hid3⟩
    -- t1 ∈ unconf has the same id as t3 ∈ tracked; identify them
    have := List.inj_on_of_nodup_map (tracked_ids_nodup s hnd)
      (List.mem_of_mem_filter ht1) ht3 hid3.symm
    subst this
    -- so t1 itself is in the pool-id source; but we need the activation clash
    -- t2's source: pool entries with this id come from confirmed tracked or
    -- lost entries; reconstruct the contradiction via pool_source
    rcases pool_source s t2 ht2 with ⟨u, hu, hid2, _⟩
    rcases hu with h4 | h4
    · -- u is confirmed, t1 unconfirmed, same id
      have hsame : t1.track_id = u.track_id := by
        rw [← hid]; exact hid2
      have := List.inj_on_of_nodup_map (tracked_ids_nodup s hnd)
        (List.mem_of_mem_filter ht1) (List.mem_of_mem_filter h4) hsame
      subst this
      have ha1 := List.of_mem_filter ht1
      have ha2 := List.of_mem_filter h4
      rw [ha2] at ha1
      simp at ha1
    · -- u lost, but t1's id is a tracked id: contradicts nodup of the union
      have hsame : t1.track_id = u.track_id := by
        rw [← hid]; exact hid2
      apply tracked_lost_ids_disjoint s hnd t1.track_id
      · exact List.mem_map.mpr ⟨t1, List.mem_of_mem_filter ht1, rfl⟩
      · rw [hsame]
        exact List.mem_map.mpr ⟨u, h4, rfl⟩
  · -- the pool id lies in the lost set: contradicts nodup of the union
    rw [hid] at h3
    apply tracked_lost_ids_disjoint s hnd t1.track_id
    · exact List.mem_map.mpr ⟨t1, List.mem_of_mem_filter ht1, rfl⟩
    · exact h3

end Upd

theorem getD_track_id_inj (l : List STrack)
    (hl : (l.map STrack.track_id).Nodup) (i j : ℕ)
    (hi : i < l.length) (hj : j < l.length)
    (h : (l.getD i default).track_id = (l.getD j default).track_id) : i = j := by
  have hl2 : l.Nodup := hl.of_map
  have hji : l.getD i default = l.getD j default :=
    List.inj_on_of_nodup_map hl (getD_mem_of_lt l i hi) (getD_mem_of_lt l j hj) h
  rw [List.getD_eq_getElem l default hi, List.getD_eq_getElem l default hj] at hji
  exact (List.Nodup.getElem_inj_iff hl2).mp hji

namespace Upd

theorem r1_rows (s : BYTETracker) (solver : SolverOracle) (dets : List Detection) :
    (fuse_score
      (iou_distance ((pool s).map STrack.rect) ((highDets s dets).map STrack.rect))
      ((highDets s dets).map fun t => Detection.from_rect t.rect t.score)).rows
      = (pool s).length := by
  show ((pool s).map STrack.rect).length = (pool s).length
  exact List.length_map _ _

theorem r1_matched_lt (s : BYTETracker) (solver : SolverOracle) (dets : List Detection)
    (m : ℕ × ℕ) (hm : m ∈ (r1 s solver dets).matched_pairs) :
    m.1 < (pool s).length := by
  have h := (la_matched_mem solver _ s.config.match_thresh m hm).1
  rwa [r1_rows s solver dets] at h

theorem r1_unmatched_lt (s : BYTETracker) (solver : SolverOracle) (dets : List Detection)
    (i : ℕ) (hi : i ∈ (r1 s solver dets).unmatched_tracks) :
    i < (pool s).length := by
  have h := la_unmatched_lt solver _ s.config.match_thresh i hi
  rwa [r1_rows s solver dets] at h

theorem r2_rows (s : BYTETracker) (solver : SolverOracle) (dets : List Detection) :
    (iou_distance ((rTracked s solver dets).map STrack.rect)
      ((lowDets s dets).map STrack.rect)).rows = (rTracked s solver dets).length := by
  show ((rTracked s solver dets).map STrack.rect).length = _
  exact List.length_map _ _

theorem r2_matched_lt (s : BYTETracker) (solver : SolverOracle) (dets : List Detection)
    (m : ℕ × ℕ) (hm : m ∈ (r2 s solver dets).matched_pairs) :
    m.1 < (rTracked s solver dets).length := by
  have h := (la_matched_mem solver _ (1 / 2) m hm).1
  rwa [r2_rows s solver dets] at h

theorem r2_unmatched_lt (s : BYTETracker) (solver : SolverOracle) (dets : List Detection)
    (i : ℕ) (hi : i ∈ (r2 s solver dets).unmatched_tracks) :
    i < (rTracked s solver dets).length := by
  have h := la_unmatched_lt solver _ (1 / 2) i hi
  rwa [r2_rows s solver dets] at h

theorem r3_rows (s : BYTETracker) (solver : SolverOracle) (dets : List Detection) :
    (fuse_score
      (iou_distance ((unconf s).map STrack.rect) ((detsRem s solver dets).map STrack.rect))
      ((detsRem s solver dets).map fun t => Detection.from_rect t.rect t.score)).rows
      = (unconf s).length := by
  show ((unconf s).map STrack.rect).length = _
  exact List.length_map _ _

theorem r3_matched_lt (s : BYTETracker) (solver : SolverOracle) (dets : List Detection)
    (m : ℕ × ℕ) (hm : m ∈ (r3 s solver dets).matched_pairs) :
    m.1 < (unconf s).length := by
  have h := (la_matched_mem solver _ (7 / 10) m hm).1
  rwa [r3_rows s solver dets] at h

theorem r3_unmatched_lt (s : BYTETracker) (solver : SolverOracle) (dets : List Detection)
    (i : ℕ) (hi : i ∈ (r3 s solver dets).unmatched_tracks) :
    i < (unconf s).length := by
  have h := la_unmatched_lt solver _ (7 / 10) i hi
  rwa [r3_rows s solver dets] at h

theorem rTracked_mem (s : BYTETracker) (solver : SolverOracle) (dets : List Detection)
    (t : STrack) (ht : t ∈ rTracked s solver dets) :
    (∃ j ∈ (r1 s solver dets).unmatched_tracks, t = (pool s).getD j default) ∧
    t.state = TrackState.Tracked := by
  unfold rTracked at ht
  rcases List.mem_filter.mp ht with ⟨h1, h2⟩
  rw [decide_eq_true_eq] at h2
  rcases List.mem_map.mp h1 with ⟨j, hj, rfl⟩
  exact ⟨⟨j, hj, rfl⟩, h2⟩

theorem rTracked_mem_pool (s : BYTETracker) (solver : SolverOracle)
    (dets : List Detection) (t : STrack) (ht : t ∈ rTracked s solver dets) :
    t ∈ pool s := by
  rcases (rTracked_mem s solver dets t ht).1 with ⟨j, hj, rfl⟩
  exact getD_mem_of_lt _ j (r1_unmatched_lt s solver dets j hj)

theorem rTracked_nodup (s : BYTETracker) (solver : SolverOracle) (dets : List Detection)
    (hnd : ((s.tracked_stracks ++ s.lost_stracks).map STrack.track_id).Nodup) :
    ((rTracked s solver dets).map STrack.track_id).Nodup := by
  unfold rTracked
  have hbig := nodup_map_getD_track_id (pool s) (r1 s solver dets).unmatched_tracks
    (pool_nodup s hnd) (la_unmatched_nodup solver _ s.config.match_thresh)
    (fun i hi => r1_unmatched_lt s solver dets i hi)
  have hsub : (((((r1 s solver dets).unmatched_tracks.map fun i =>
      (pool s).getD i default).filter
        fun t => decide (t.state = TrackState.Tracked)).map STrack.track_id)).Sublist
      ((((r1 s solver dets).unmatched_tracks.map fun i =>
        (pool s).getD i default)).map STrack.track_id) :=
    (List.filter_sublist _).map _
  exact hbig.sublist hsub

/-- Every id of a residual tracked entry is the id of a pool entry at an
`r1`-unmatched index. -/
theorem rTracked_id_source (s : BYTETracker) (solver : SolverOracle)
    (dets : List Detection) (x : ℕ)
    (hx : x ∈ (rTracked s solver dets).map STrack.track_id) :
    ∃ j ∈ (r1 s solver dets).unmatched_tracks,
      x = ((pool s).getD j default).track_id := by
  rcases List.mem_map.mp hx with ⟨t, ht, rfl⟩
  rcases (rTracked_mem s solver dets t ht).1 with ⟨j, hj, rfl⟩
  exact ⟨j, hj, rfl⟩


theorem matchA_ids_map (pool dets : List STrack) (kf : KalmanFilter)
    (frame_id counter : ℕ) (ms : List (ℕ × ℕ)) :
    ((ms.filterMap fun m =>
        if (pool.getD m.1 default).state = TrackState.Tracked then
          some ((pool.getD m.1 default).update (dets.getD m.2 default) kf frame_id)
        else none).map STrack.track_id)
      = ms.filterMap fun m =>
          if (pool.getD m.1 default).state = TrackState.Tracked then
            some ((pool.getD m.1 default).track_id)
          else none := by
  rw [List.map_filterMap]
  apply List.filterMap_congr
  intro m _
  by_cases h : (pool.getD m.1 default).state = TrackState.Tracked
  · rw [if_pos h, if_pos h, Option.map_some']
    rw [(strack_update_fields _ _ kf frame_id).1]
  · rw [if_neg h, if_neg h, Option.map_none']

theorem matchR_ids_map (pool dets : List STrack) (kf : KalmanFilter)
    (frame_id counter : ℕ) (ms : List (ℕ × ℕ)) :
    ((ms.filterMap fun m =>
        if (pool.getD m.1 default).state = TrackState.Tracked then none
        else some (((pool.getD m.1 default).re_activate (dets.getD m.2 default)
          kf frame_id false counter).1)).map STrack.track_id)
      = ms.filterMap fun m =>
          if (pool.getD m.1 default).state = TrackState.Tracked then none
          else some ((pool.getD m.1 default).track_id) := by
  rw [List.map_filterMap]
  apply List.filterMap_congr
  intro m _
  by_cases h : (pool.getD m.1 default).state = TrackState.Tracked
  · rw [if_pos h, if_pos h, Option.map_none']
  · rw [if_neg h, if_neg h, Option.map_some']
    rw [(re_activate_fields _ _ kf frame_id counter).1]

/-- The ids of the four association-produced groups. -/
theorem ar2_ids (s : BYTETracker) (solver : SolverOracle) (dets : List Detection) :
    (ar2 s solver dets).1.map STrack.track_id
      = ((r1 s solver dets).matched_pairs.filterMap fun m =>
          if ((pool s).getD m.1 default).state = TrackState.Tracked then
            some (((pool s).getD m.1 default).track_id)
          else none) ++
        ((r2 s solver dets).matched_pairs.filterMap fun m =>
          if ((rTracked s solver dets).getD m.1 default).state = TrackState.Tracked then
            some (((rTracked s solver dets).getD m.1 default).track_id)
          else none) ∧
    (ar2 s solver dets).2.map STrack.track_id
      = ((r1 s solver dets).matched_pairs.filterMap fun m =>
          if ((pool s).getD m.1 default).state = TrackState.Tracked then none
          else some (((pool s).getD m.1 default).track_id)) ++
        ((r2 s solver dets).matched_pairs.filterMap fun m =>
          if ((rTracked s solver dets).getD m.1 default).state = TrackState.Tracked then none
          else some (((rTracked s solver dets).getD m.1 default).track_id)) := by
  unfold ar2
  rw [process_matches_eq]
  dsimp only
  constructor
  · rw [List.map_append]
    unfold ar1
    rw [process_matches_part1_ids]
    rw [matchA_ids_map _ _ s.kalman_filter (s.frame_id + 1) s.counter]
  · rw [List.map_append]
    unfold ar1
    rw [process_matches_part2_ids]
    rw [matchR_ids_map _ _ s.kalman_filter (s.frame_id + 1) s.counter]

theorem actUnc_ids (s : BYTETracker) (solver : SolverOracle) (dets : List Detection) :
    (actUnc s solver dets).map STrack.track_id
      = (r3 s solver dets).matched_pairs.map fun m =>
          ((unconf s).getD m.1 default).track_id := by
  unfold actUnc
  rw [List.map_map]
  apply List.map_congr_left
  intro m _
  exact (strack_update_fields _ _ s.kalman_filter (s.frame_id + 1)).1

theorem actUnc_ids_nodup (s : BYTETracker) (solver : SolverOracle) (dets : List Detection)
    (hnd : ((s.tracked_stracks ++ s.lost_stracks).map STrack.track_id).Nodup) :
    ((actUnc s solver dets).map STrack.track_id).Nodup := by
  rw [actUnc_ids]
  refine List.Nodup.map_on ?_ ?_
  · intro m hm m2 hm2 heq
    have h1 := r3_matched_lt s solver dets m hm
    have h2 := r3_matched_lt s solver dets m2 hm2
    have hfst : m.1 = m2.1 :=
      getD_track_id_inj (unconf s) (unconf_nodup s hnd) m.1 m2.1 h1 h2 heq
    exact List.inj_on_of_nodup_map (la_matched_fst_nodup solver _ (7 / 10)) hm hm2 hfst
  · -- matched pairs are themselves nodup because their row components are
    have := la_matched_fst_nodup solver
      (fuse_score (iou_distance ((unconf s).map STrack.rect)
        ((detsRem s solver dets).map STrack.rect))
        ((detsRem s solver dets).map fun t => Detection.from_rect t.rect t.score)) (7 / 10)
    exact this.of_map

theorem actUnc_id_mem_unconf (s : BYTETracker) (solver : SolverOracle)
    (dets : List Detection) (x : ℕ)
    (hx : x ∈ (actUnc s solver dets).map STrack.track_id) :
    x ∈ (unconf s).map STrack.track_id := by
  rw [actUnc_ids] at hx
  rcases List.mem_map.mp hx with ⟨m, hm, rfl⟩
  exact track_id_getD_mem_map (unconf s) m.1 (r3_matched_lt s solver dets m hm)


/-! Zone sources for the ids produced by the association phases. -/

theorem srcA1 (s : BYTETracker) (solver : SolverOracle) (dets : List Detection) (x : ℕ)
    (hx : x ∈ (r1 s solver dets).matched_pairs.filterMap fun m =>
      if ((pool s).getD m.1 default).state = TrackState.Tracked then
        some (((pool s).getD m.1 default).track_id)
      else none) :
    ∃ i ∈ (r1 s solver dets).matched_pairs.map Prod.fst,
      x = ((pool s).getD i default).track_id := by
  rcases (mem_filterMap_ite _ _ _ x).mp hx with ⟨m, hm, _, rfl⟩
  exact ⟨m.1, List.mem_map.mpr ⟨m, hm, rfl⟩, rfl⟩

theorem srcR1 (s : BYTETracker) (solver : SolverOracle) (dets : List Detection) (x : ℕ)
    (hx : x ∈ (r1 s solver dets).matched_pairs.filterMap fun m =>
      if ((pool s).getD m.1 default).state = TrackState.Tracked then none
      else some (((pool s).getD m.1 default).track_id)) :
    ∃ i ∈ (r1 s solver dets).matched_pairs.map Prod.fst,
      x = ((pool s).getD i default).track_id := by
  rcases (mem_filterMap_ite_neg _ _ _ x).mp hx with ⟨m, hm, _, rfl⟩
  exact ⟨m.1, List.mem_map.mpr ⟨m, hm, rfl⟩, rfl⟩

theorem srcA2 (s : BYTETracker) (solver : SolverOracle) (dets : List Detection) (x : ℕ)
    (hx : x ∈ (r2 s solver dets).matched_pairs.filterMap fun m =>
      if ((rTracked s solver dets).getD m.1 default).state = TrackState.Tracked then
        some (((rTracked s solver dets).getD m.1 default).track_id)
      else none) :
    ∃ j ∈ (r1 s solver dets).unmatched_tracks,
      x = ((pool s).getD j default).track_id := by
  rcases (mem_filterMap_ite _ _ _ x).mp hx with ⟨m, hm, _, rfl⟩
  exact rTracked_id_source s solver dets _
    (track_id_getD_mem_map _ m.1 (r2_matched_lt s solver dets m hm))

theorem srcR2 (s : BYTETracker) (solver : SolverOracle) (dets : List Detection) (x : ℕ)
    (hx : x ∈ (r2 s solver dets).matched_pairs.filterMap fun m =>
      if ((rTracked s solver dets).getD m.1 default).state = TrackState.Tracked then none
      else some (((rTracked s solver dets).getD m.1 default).track_id)) :
    ∃ j ∈ (r1 s solver dets).unmatched_tracks,
      x = ((pool s).getD j default).track_id := by
  rcases (mem_filterMap_ite_neg _ _ _ x).mp hx with ⟨m, hm, _, rfl⟩
  exact rTracked_id_source s solver dets _
    (track_id_getD_mem_map _ m.1 (r2_matched_lt s solver dets m hm))

/-- Zone disjointness: ids of matched pool rows vs ids of unmatched pool
rows. -/
theorem zone12_disjoint (s : BYTETracker) (solver : SolverOracle) (dets : List Detection)
    (hnd : ((s.tracked_stracks ++ s.lost_stracks).map STrack.track_id).Nodup)
    (x : ℕ)
    (h1 : ∃ i ∈ (r1 s solver dets).matched_pairs.map Prod.fst,
      x = ((pool s).getD i default).track_id)
    (h2 : ∃ j ∈ (r1 s solver dets).unmatched_tracks,
      x = ((pool s).getD j default).track_id) : False := by
  rcases h1 with ⟨i, hi, rfl⟩
  rcases h2 with ⟨j, hj, hx⟩
  have hi2 : i < (pool s).length := by
    rcases List.mem_map.mp hi with ⟨m, hm, rfl⟩
    exact r1_matched_lt s solver dets m hm
  have hj2 : j < (pool s).length := r1_unmatched_lt s solver dets j hj
  have hij : i = j :=
    getD_track_id_inj (pool s) (pool_nodup s hnd) i j hi2 hj2 hx
  subst hij
  exact la_disjoint_rows solver _ s.config.match_thresh i hi hj

/-- Zone disjointness: pool-derived ids vs unconfirmed ids. -/
theorem zone_pool_unconf_disjoint (s : BYTETracker) (solver : SolverOracle)
    (dets : List Detection)
    (hnd : ((s.tracked_stracks ++ s.lost_stracks).map STrack.track_id).Nodup)
    (x : ℕ) (i : ℕ) (hi : i < (pool s).length)
    (hx : x = ((pool s).getD i default).track_id)
    (h2 : x ∈ (unconf s).map STrack.track_id) : False := by
  apply unconf_pool_ids_disjoint s hnd x h2
  rw [hx]
  exact track_id_getD_mem_map _ i hi

/-- Zone disjointness: pool-derived ids are bounded by the counter. -/
theorem zone_pool_bound (s : BYTETracker) (solver : SolverOracle) (dets : List Detection)
    (hbound : ∀ t ∈ s.tracked_stracks ++ s.lost_stracks, t.track_id ≤ s.counter)
    (i : ℕ) (hi : i < (pool s).length) :
    ((pool s).getD i default).track_id ≤ s.counter :=
  pool_bound s hbound _ (getD_mem_of_lt _ i hi)

/-- Zone disjointness: unconfirmed ids are bounded by the counter. -/
theorem zone_unconf_bound (s : BYTETracker)
    (hbound : ∀ t ∈ s.tracked_stracks ++ s.lost_stracks, t.track_id ≤ s.counter)
    (x : ℕ) (hx : x ∈ (unconf s).map STrack.track_id) : x ≤ s.counter := by
  rcases List.mem_map.mp (unconf_id_mem s x hx) with ⟨t, ht, rfl⟩
  exact hbound t (List.mem_append.mpr (Or.inl ht))

/-- Within zone 1: the activated and refind halves of the first association
are id-disjoint (the branch condition on the pool entry decides the half). -/
theorem zoneA1R1_disjoint (s : BYTETracker) (solver : SolverOracle) (dets : List Detection)
    (hnd : ((s.tracked_stracks ++ s.lost_stracks).map STrack.track_id).Nodup)
    (x : ℕ)
    (h1 : x ∈ (r1 s solver dets).matched_pairs.filterMap fun m =>
      if ((pool s).getD m.1 default).state = TrackState.Tracked then
        some (((pool s).getD m.1 default).track_id)
      else none)
    (h2 : x ∈ (r1 s solver dets).matched_pairs.filterMap fun m =>
      if ((pool s).getD m.1 default).state = TrackState.Tracked then none
      else some (((pool s).getD m.1 default).track_id)) : False := by
  rcases (mem_filterMap_ite _ _ _ x).mp h1 with ⟨m, hm, hc, hx1⟩
  rcases (mem_filterMap_ite_neg _ _ _ x).mp h2 with ⟨m2, hm2, hc2, hx2⟩
  have h1l := r1_matched_lt s solver dets m hm
  have h2l := r1_matched_lt s solver dets m2 hm2
  have : m2.1 = m.1 :=
    getD_track_id_inj (pool s) (pool_nodup s hnd) m2.1 m.1 h2l h1l
      (hx2.trans hx1.symm)
  rw [this] at hc2
  exact hc2 hc

/-- Within zone 2: the activated and refind halves of the second association
are id-disjoint. -/
theorem zoneA2R2_disjoint (s : BYTETracker) (solver : SolverOracle) (dets : List Detection)
    (hnd : ((s.tracked_stracks ++ s.lost_stracks).map STrack.track_id).Nodup)
    (x : ℕ)
    (h1 : x ∈ (r2 s solver dets).matched_pairs.filterMap fun m =>
      if ((rTracked s solver dets).getD m.1 default).state = TrackState.Tracked then
        some (((rTracked s solver dets).getD m.1 default).track_id)
      else none)
    (h2 : x ∈ (r2 s solver dets).matched_pairs.filterMap fun m =>
      if ((rTracked s solver dets).getD m.1 default).state = TrackState.Tracked then none
      else some (((rTracked s solver dets).getD m.1 default).track_id)) : False := by
  rcases (mem_filterMap_ite _ _ _ x).mp h1 with ⟨m, hm, hc, hx1⟩
  rcases (mem_filterMap_ite_neg _ _ _ x).mp h2 with ⟨m2, hm2, hc2, hx2⟩
  have h1l := r2_matched_lt s solver dets m hm
  have h2l := r2_matched_lt s solver dets m2 hm2
  have : m2.1 = m.1 :=
    getD_track_id_inj (rTracked s solver dets) (rTracked_nodup s solver dets hnd)
      m2.1 m.1 h2l h1l (hx2.trans hx1.symm)
  rw [this] at hc2
  exact hc2 hc

/-- Nodup of the activated half of the first association's id list. -/
theorem hndA1 (s : BYTETracker) (solver : SolverOracle) (dets : List Detection)
    (hnd : ((s.tracked_stracks ++ s.lost_stracks).map STrack.track_id).Nodup) :
    ((r1 s solver dets).matched_pairs.filterMap fun m =>
      if ((pool s).getD m.1 default).state = TrackState.Tracked then
        some (((pool s).getD m.1 default).track_id)
      else none).Nodup := by
  have hbig : ((r1 s solver dets).matched_pairs.map fun m =>
      ((pool s).getD m.1 default).track_id).Nodup := by
    have h0 := nodup_map_getD_track_id (pool s)
      ((r1 s solver dets).matched_pairs.map Prod.fst) (pool_nodup s hnd)
      ((la_matched_fst_nodup solver _ s.config.match_thresh))
      (by
        intro i hi
        rcases List.mem_map.mp hi with ⟨m, hm, rfl⟩
        exact r1_matched_lt s solver dets m hm)
    rw [List.map_map, List.map_map] at h0
    exact h0
  exact hbig.sublist (filterMap_ite_sublist_prop _ _ _)

theorem hndR1 (s : BYTETracker) (solver : SolverOracle) (dets : List Detection)
    (hnd : ((s.tracked_stracks ++ s.lost_stracks).map STrack.track_id).Nodup) :
    ((r1 s solver dets).matched_pairs.filterMap fun m =>
      if ((pool s).getD m.1 default).state = TrackState.Tracked then none
      else some (((pool s).getD m.1 default).track_id)).Nodup := by
  have hbig : ((r1 s solver dets).matched_pairs.map fun m =>
      ((pool s).getD m.1 default).track_id).Nodup := by
    have h0 := nodup_map_getD_track_id (pool s)
      ((r1 s solver dets).matched_pairs.map Prod.fst) (pool_nodup s hnd)
      ((la_matched_fst_nodup solver _ s.config.match_thresh))
      (by
        intro i hi
        rcases List.mem_map.mp hi with ⟨m, hm, rfl⟩
        exact r1_matched_lt s solver dets m hm)
    rw [List.map_map, List.map_map] at h0
    exact h0
  exact hbig.sublist (filterMap_ite_neg_sublist_prop _ _ _)

theorem hndA2 (s : BYTETracker) (solver : SolverOracle) (dets : List Detection)
    (hnd : ((s.tracked_stracks ++ s.lost_stracks).map STrack.track_id).Nodup) :
    ((r2 s solver dets).matched_pairs.filterMap fun m =>
      if ((rTracked s solver dets).getD m.1 default).state = TrackState.Tracked then
        some (((rTracked s solver dets).getD m.1 default).track_id)
      else none).Nodup := by
  have hbig : ((r2 s solver dets).matched_pairs.map fun m =>
      ((rTracked s solver dets).getD m.1 default).track_id).Nodup := by
    have h0 := nodup_map_getD_track_id (rTracked s solver dets)
      ((r2 s solver dets).matched_pairs.map Prod.fst)
      (rTracked_nodup s solver dets hnd)
      ((la_matched_fst_nodup solver _ (1 / 2)))
      (by
        intro i hi
        rcases List.mem_map.mp hi with ⟨m, hm, rfl⟩
        exact r2_matched_lt s solver dets m hm)
    rw [List.map_map, List.map_map] at h0
    exact h0
  exact hbig.sublist (filterMap_ite_sublist_prop _ _ _)

theorem hndR2 (s : BYTETracker) (solver : SolverOracle) (dets : List Detection)
    (hnd : ((s.tracked_stracks ++ s.lost_stracks).map STrack.track_id).Nodup) :
    ((r2 s solver dets).matched_pairs.filterMap fun m =>
      if ((rTracked s solver dets).getD m.1 default).state = TrackState.Tracked then none
      else some (((rTracked s solver dets).getD m.1 default).track_id)).Nodup := by
  have hbig : ((r2 s solver dets).matched_pairs.map fun m =>
      ((rTracked s solver dets).getD m.1 default).track_id).Nodup := by
    have h0 := nodup_map_getD_track_id (rTracked s solver dets)
      ((r2 s solver dets).matched_pairs.map Prod.fst)
      (rTracked_nodup s solver dets hnd)
      ((la_matched_fst_nodup solver _ (1 / 2)))
      (by
        intro i hi
        rcases List.mem_map.mp hi with ⟨m, hm, rfl⟩
        exact r2_matched_lt s solver dets m hm)
    rw [List.map_map, List.map_map] at h0
    exact h0
  exact hbig.sublist (filterMap_ite_neg_sublist_prop _ _ _)


theorem counter_le_initNew (s : BYTETracker) (solver : SolverOracle)
    (dets : List Detection) : s.counter ≤ (initNew s solver dets).2 :=
  (init_new_tracks_spec (detsRem s solver dets) s.config.track_thresh
    s.kalman_filter (s.frame_id + 1) (r3 s solver dets).unmatched_detections
    s.counter).1

theorem tracked1_facts (s : BYTETracker) (solver : SolverOracle) (dets : List Detection)
    (hnd : ((s.tracked_stracks ++ s.lost_stracks).map STrack.track_id).Nodup)
    (hbound : ∀ t ∈ s.tracked_stracks ++ s.lost_stracks, t.track_id ≤ s.counter) :
    ((tracked1 s solver dets).map STrack.track_id).Nodup ∧
    (∀ t ∈ tracked1 s solver dets, t.state = TrackState.Tracked) ∧
    (∀ t ∈ tracked1 s solver dets, t.track_id ≤ (initNew s solver dets).2) := by
  have hinit := init_new_tracks_spec (detsRem s solver dets) s.config.track_thresh
    s.kalman_filter (s.frame_id + 1) (r3 s solver dets).unmatched_detections s.counter
  have hids1 := (ar2_ids s solver dets).1
  have hids2 := (ar2_ids s solver dets).2
  have hbig : ((ar2 s solver dets).1 ++ actUnc s solver dets ++
      (initNew s solver dets).1 ++ (ar2 s solver dets).2).map STrack.track_id
      = (((r1 s solver dets).matched_pairs.filterMap fun m =>
          if ((pool s).getD m.1 default).state = TrackState.Tracked then
            some (((pool s).getD m.1 default).track_id)
          else none) ++
        ((r2 s solver dets).matched_pairs.filterMap fun m =>
          if ((rTracked s solver dets).getD m.1 default).state = TrackState.Tracked then
            some (((rTracked s solver dets).getD m.1 default).track_id)
          else none)) ++
        (actUnc s solver dets).map STrack.track_id ++
        (initNew s solver dets).1.map STrack.track_id ++
        (((r1 s solver dets).matched_pairs.filterMap fun m =>
            if ((pool s).getD m.1 default).state = TrackState.Tracked then none
            else some (((pool s).getD m.1 default).track_id)) ++
          ((r2 s solver dets).matched_pairs.filterMap fun m =>
            if ((rTracked s solver dets).getD m.1 default).state =
                TrackState.Tracked then none
            else some (((rTracked s solver dets).getD m.1 default).track_id))) := by
    rw [List.map_append, List.map_append, List.map_append, hids1, hids2]
  -- abbreviations for the membership arguments below
  have poolIdxA : ∀ x, x ∈ (((r1 s solver dets).matched_pairs.filterMap fun m =>
        if ((pool s).getD m.1 default).state = TrackState.Tracked then
          some (((pool s).getD m.1 default).track_id)
        else none) ++
      ((r2 s solver dets).matched_pairs.filterMap fun m =>
        if ((rTracked s solver dets).getD m.1 default).state = TrackState.Tracked then
          some (((rTracked s solver dets).getD m.1 default).track_id)
        else none)) →
      ∃ i, i < (pool s).length ∧ x = ((pool s).getD i default).track_id := by
    intro x hx
    rcases List.mem_append.mp hx with hx3 | hx3
    · rcases srcA1 s solver dets _ hx3 with ⟨i, hi, hxi⟩
      refine ⟨i, ?_, hxi⟩
      rcases List.mem_map.mp hi with ⟨m, hm, rfl⟩
      exact r1_matched_lt s solver dets m hm
    · rcases srcA2 s solver dets _ hx3 with ⟨j, hj, hxj⟩
      exact ⟨j, r1_unmatched_lt s solver dets j hj, hxj⟩
  have poolIdxR : ∀ x, x ∈ (((r1 s solver dets).matched_pairs.filterMap fun m =>
        if ((pool s).getD m.1 default).state = TrackState.Tracked then none
        else some (((pool s).getD m.1 default).track_id)) ++
      ((r2 s solver dets).matched_pairs.filterMap fun m =>
        if ((rTracked s solver dets).getD m.1 default).state = TrackState.Tracked then none
        else some (((rTracked s solver dets).getD m.1 default).track_id))) →
      ∃ i, i < (pool s).length ∧ x = ((pool s).getD i default).track_id := by
    intro x hx
    rcases List.mem_append.mp hx with hx3 | hx3
    · rcases srcR1 s solver dets _ hx3 with ⟨i, hi, hxi⟩
      refine ⟨i, ?_, hxi⟩
      rcases List.mem_map.mp hi with ⟨m, hm, rfl⟩
      exact r1_matched_lt s solver dets m hm
    · rcases srcR2 s solver dets _ hx3 with ⟨j, hj, hxj⟩
      exact ⟨j, r1_unmatched_lt s solver dets j hj, hxj⟩
  refine ⟨?_, ?_, ?_⟩
  · -- Nodup of the tracked1 id list
    have hsub : ((tracked1 s solver dets).map STrack.track_id).Sublist
        (((ar2 s solver dets).1 ++ actUnc s solver dets ++
          (initNew s solver dets).1 ++ (ar2 s solver dets).2).map STrack.track_id) := by
      unfold tracked1
      exact (List.filter_sublist _).map _
    suffices hbigN : (((ar2 s solver dets).1 ++ actUnc s solver dets ++
        (initNew s solver dets).1 ++ (ar2 s solver dets).2).map STrack.track_id).Nodup by
      exact hbigN.sublist hsub
    rw [hbig]
    rw [List.nodup_append]
    refine ⟨?_, ?_, ?_⟩
    · -- Nodup ((A ++ IU) ++ IN)
      rw [List.nodup_append]
      refine ⟨?_, hinit.2.2, ?_⟩
      · -- Nodup (A ++ IU)
        rw [List.nodup_append]
        refine ⟨?_, actUnc_ids_nodup s solver dets hnd, ?_⟩
        · rw [List.nodup_append]
          refine ⟨hndA1 s solver dets hnd, hndA2 s solver dets hnd, ?_⟩
          intro x hx1 hx2
          exact zone12_disjoint s solver dets hnd x (srcA1 s solver dets x hx1)
            (srcA2 s solver dets x hx2)
        · -- Disjoint A IU
          intro x hx1 hx2
          rcases poolIdxA x hx1 with ⟨i, hil, hxi⟩
          exact zone_pool_unconf_disjoint s solver dets hnd x i hil hxi
            (actUnc_id_mem_unconf s solver dets x hx2)
      · -- Disjoint (A ++ IU) IN
        intro x hx1 hx2
        rcases List.mem_map.mp hx2 with ⟨t, ht, hxid⟩
        have hgt := (hinit.2.1 t ht).1
        rw [hxid] at hgt
        rcases List.mem_append.mp hx1 with hx3 | hx3
        · rcases poolIdxA x hx3 with ⟨i, hil, hxi⟩
          have hle := zone_pool_bound s solver dets hbound i hil
          rw [← hxi] at hle
          exact absurd hgt (not_lt.mpr hle)
        · have hle := zone_unconf_bound s hbound _
            (actUnc_id_mem_unconf s solver dets _ hx3)
          exact absurd hgt (not_lt.mpr hle)
    · -- Nodup (R1 ++ R2)
      rw [List.nodup_append]
      refine ⟨hndR1 s solver dets hnd, hndR2 s solver dets hnd, ?_⟩
      intro x hx1 hx2
      exact zone12_disjoint s solver dets hnd x (srcR1 s solver dets x hx1)
        (srcR2 s solver dets x hx2)
    · -- Disjoint ((A ++ IU) ++ IN) (R1 ++ R2)
      intro x hx1 hx2
      rcases List.mem_append.mp hx1 with hx3 | hx3
      · rcases List.mem_append.mp hx3 with hx4 | hx4
        · -- x from A: zone arguments against both R halves
          rcases List.mem_append.mp hx2 with hx5 | hx5
          · rcases List.mem_append.mp hx4 with hx6 | hx6
            · exact zoneA1R1_disjoint s solver dets hnd x hx6 hx5
            · exact zone12_disjoint s solver dets hnd x
                (srcR1 s solver dets x hx5) (srcA2 s solver dets x hx6)
          · rcases List.mem_append.mp hx4 with hx6 | hx6
            · exact zone12_disjoint s solver dets hnd x
                (srcA1 s solver dets x hx6) (srcR2 s solver dets x hx5)
            · exact zoneA2R2_disjoint s solver dets hnd x hx6 hx5
        · -- x from IU against pool-derived R ids
          rcases poolIdxR x hx2 with ⟨i, hil, hxi⟩
          exact zone_pool_unconf_disjoint s solver dets hnd x i hil hxi
            (actUnc_id_mem_unconf s solver dets x hx4)
      · -- x from IN: fresh ids exceed the counter, R ids do not
        rcases List.mem_map.mp hx3 with ⟨t, ht, hxid⟩
        have hgt := (hinit.2.1 t ht).1
        rw [hxid] at hgt
        rcases poolIdxR x hx2 with ⟨i, hil, hxi⟩
        have hle := zone_pool_bound s solver dets hbound i hil
        rw [← hxi] at hle
        exact absurd hgt (not_lt.mpr hle)
  · -- states
    intro t ht
    have := List.of_mem_filter ht
    rwa [decide_eq_true_eq] at this
  · -- bounds
    intro t ht
    have hmem := List.mem_of_mem_filter ht
    have hincl : t.track_id ∈ (((ar2 s solver dets).1 ++ actUnc s solver dets ++
        (initNew s solver dets).1 ++ (ar2 s solver dets).2).map STrack.track_id) :=
      List.mem_map.mpr ⟨t, hmem, rfl⟩
    rw [hbig] at hincl
    have hcle := counter_le_initNew s solver dets
    rcases List.mem_append.mp hincl with hx1 | hx1
    · rcases List.mem_append.mp hx1 with hx3 | hx3
      · rcases List.mem_append.mp hx3 with hx4 | hx4
        · -- A: pool-bounded
          rcases poolIdxA _ hx4 with ⟨i, hil, hxi⟩
          rw [hxi]
          exact le_trans (zone_pool_bound s solver dets hbound i hil) hcle
        · -- IU: unconf-bounded
          exact le_trans (zone_unconf_bound s hbound _
            (actUnc_id_mem_unconf s solver dets _ hx4)) hcle
      · -- IN
        rcases List.mem_map.mp hx3 with ⟨u, hu, hxid⟩
        rw [← hxid]
        exact (hinit.2.1 u hu).2.1
    · -- R: pool-bounded
      rcases poolIdxR _ hx1 with ⟨i, hil, hxi⟩
      rw [hxi]
      exact le_trans (zone_pool_bound s solver dets hbound i hil) hcle

theorem lostNew_ids (s : BYTETracker) (solver : SolverOracle) (dets : List Detection) :
    (lostNew s solver dets).map STrack.track_id =
      ((((r2 s solver dets).unmatched_tracks.map fun i =>
        (rTracked s solver dets).getD i default).filter
          fun t => decide (t.state ≠ TrackState.Lost)).map STrack.track_id) := by
  unfold lostNew
  rw [List.map_map]
  exact List.map_congr_left fun t _ => (mark_lost_fields t).1

theorem lostNew_nodup (s : BYTETracker) (solver : SolverOracle) (dets : List Detection)
    (hnd : ((s.tracked_stracks ++ s.lost_stracks).map STrack.track_id).Nodup) :
    ((lostNew s solver dets).map STrack.track_id).Nodup := by
  rw [lostNew_ids]
  have hbig := nodup_map_getD_track_id (rTracked s solver dets)
    (r2 s solver dets).unmatched_tracks (rTracked_nodup s solver dets hnd)
    (la_unmatched_nodup solver _ (1 / 2))
    (fun i hi => r2_unmatched_lt s solver dets i hi)
  exact hbig.sublist ((List.filter_sublist _).map _)

theorem lostNew_mem (s : BYTETracker) (solver : SolverOracle) (dets : List Detection)
    (t : STrack) (ht : t ∈ lostNew s solver dets) :
    ∃ u ∈ rTracked s solver dets, t = u.mark_lost := by
  unfold lostNew at ht
  rcases List.mem_map.mp ht with ⟨u, hu, rfl⟩
  have hu2 := List.mem_of_mem_filter hu
  rcases List.mem_map.mp hu2 with ⟨i, hi, rfl⟩
  exact ⟨(rTracked s solver dets).getD i default,
    getD_mem_of_lt _ i (r2_unmatched_lt s solver dets i hi), rfl⟩

theorem sweep_facts (s : BYTETracker) (solver : SolverOracle) (dets : List Detection)
    (hnd : ((s.tracked_stracks ++ s.lost_stracks).map STrack.track_id).Nodup)
    (hlst : ∀ t ∈ s.lost_stracks, t.state = TrackState.Lost)
    (hbound : ∀ t ∈ s.tracked_stracks ++ s.lost_stracks, t.track_id ≤ s.counter) :
    ((sweep s solver dets).1.map STrack.track_id).Nodup ∧
    (∀ t ∈ (sweep s solver dets).1, t.state = TrackState.Lost) ∧
    (∀ t ∈ (sweep s solver dets).1, t.track_id ≤ s.counter) ∧
    (∀ t ∈ (sweep s solver dets).2, t.state = TrackState.Removed) := by
  have heq : sweep s solver dets =
      (lostNew s solver dets ++ (s.lost_stracks.filter fun t =>
        !decide (s.max_time_lost < s.frame_id + 1 - t.end_frame)),
       removedUnc s solver dets ++ ((s.lost_stracks.filter fun t =>
        decide (s.max_time_lost < s.frame_id + 1 - t.end_frame)).map
          STrack.mark_removed)) := by
    unfold sweep
    rw [sweep_lost_eq]
  rw [heq]
  dsimp only
  have hLNsrc : ∀ x ∈ (lostNew s solver dets).map STrack.track_id,
      x ∈ s.tracked_stracks.map STrack.track_id := by
    intro x hx
    rcases List.mem_map.mp hx with ⟨t, ht, rfl⟩
    rcases lostNew_mem s solver dets t ht with ⟨u, hu, rfl⟩
    rw [(mark_lost_fields u).1]
    exact pool_tracked_id_mem s hlst u (rTracked_mem_pool s solver dets u hu)
      (rTracked_mem s solver dets u hu).2
  refine ⟨?_, ?_, ?_, ?_⟩
  · -- Nodup of the reconciled lost ids
    rw [List.map_append, List.nodup_append]
    refine ⟨lostNew_nodup s solver dets hnd, ?_, ?_⟩
    · exact (lost_ids_nodup s hnd).sublist ((List.filter_sublist _).map _)
    · intro x hx1 hx2
      have hx3 : x ∈ s.lost_stracks.map STrack.track_id := by
        rcases List.mem_map.mp hx2 with ⟨t, ht, rfl⟩
        exact List.mem_map.mpr ⟨t, List.mem_of_mem_filter ht, rfl⟩
      exact tracked_lost_ids_disjoint s hnd x (hLNsrc x hx1) hx3
  · -- all lost states
    intro t ht
    rcases List.mem_append.mp ht with h1 | h1
    · rcases lostNew_mem s solver dets t h1 with ⟨u, _, rfl⟩
      exact (mark_lost_fields u).2
    · exact hlst t (List.mem_of_mem_filter h1)
  · -- bounds
    intro t ht
    rcases List.mem_append.mp ht with h1 | h1
    · have := hLNsrc t.track_id (List.mem_map.mpr ⟨t, h1, rfl⟩)
      rcases List.mem_map.mp this with ⟨u, hu, hid⟩
      rw [← hid]
      exact hbound u (List.mem_append.mpr (Or.inl hu))
    · exact hbound t (List.mem_append.mpr (Or.inr (List.mem_of_mem_filter h1)))
  · -- removed states
    intro t ht
    rcases List.mem_append.mp ht with h1 | h1
    · unfold removedUnc at h1
      rcases List.mem_map.mp h1 with ⟨u, _, rfl⟩
      exact (mark_removed_fields u).2
    · rcases List.mem_map.mp h1 with ⟨u, _, rfl⟩
      exact (mark_removed_fields u).2

end Upd

/-- The internal working-set invariant of a tracker (claim C2's property). -/
def Invariant (s : BYTETracker) : Prop :=
  ((s.tracked_stracks ++ s.lost_stracks).map STrack.track_id).Nodup ∧
  (∀ t ∈ s.tracked_stracks, t.state = TrackState.Tracked) ∧
  (∀ t ∈ s.lost_stracks, t.state = TrackState.Lost) ∧
  (∀ t ∈ s.removed_stracks, t.state = TrackState.Removed) ∧
  (∀ t ∈ s.tracked_stracks ++ s.lost_stracks, t.track_id ≤ s.counter)

theorem invariant_new (config : TrackerConfig) :
    Invariant (BYTETracker.new config) := by
  refine ⟨?_, ?_, ?_, ?_, ?_⟩ <;> simp [BYTETracker.new]

theorem invariant_update (s : BYTETracker) (solver : SolverOracle)
    (dets : List Detection) (hI : Invariant s) :
    Invariant (s.update solver dets).1 := by
  obtain ⟨hnd, htrk, hlst, hrmv, hbound⟩ := hI
  have hT := Upd.tracked1_facts s solver dets hnd hbound
  have hS := Upd.sweep_facts s solver dets hnd hlst hbound
  have hf1 : (s.update solver dets).1.tracked_stracks = (Upd.dedup s solver dets).1 := by
    rw [Upd.update_eq]
  have hf2 : (s.update solver dets).1.lost_stracks = (Upd.dedup s solver dets).2 := by
    rw [Upd.update_eq]
  have hf3 : (s.update solver dets).1.removed_stracks
      = s.removed_stracks ++ (Upd.sweep s solver dets).2 := by
    rw [Upd.update_eq]
  have hf4 : (s.update solver dets).1.counter = (Upd.initNew s solver dets).2 := by
    rw [Upd.update_eq]
  have hdd := remove_duplicate_sublists (Upd.tracked1 s solver dets)
    (Upd.lost1 s solver dets)
  have hl1 : (Upd.lost1 s solver dets).Sublist (Upd.sweep s solver dets).1 :=
    sub_stracks_sublist _ _
  have hd2sw : ((Upd.dedup s solver dets).2).Sublist (Upd.sweep s solver dets).1 :=
    hdd.2.trans hl1
  unfold Invariant
  rw [hf1, hf2, hf3, hf4]
  refine ⟨?_, ?_, ?_, ?_, ?_⟩
  · rw [List.map_append, List.nodup_append]
    refine ⟨hT.1.sublist (hdd.1.map _), hS.1.sublist (hd2sw.map _), ?_⟩
    intro x hx1 hx2
    rcases List.mem_map.mp hx2 with ⟨t, ht, rfl⟩
    have ht1 : t ∈ Upd.lost1 s solver dets := hdd.2.subset ht
    apply (sub_stracks_mem _ _ t ht1).2
    exact (hdd.1.map STrack.track_id).subset hx1
  · intro t ht
    exact hT.2.1 t (hdd.1.subset ht)
  · intro t ht
    exact hS.2.1 t (hd2sw.subset ht)
  · intro t ht
    rcases List.mem_append.mp ht with h | h
    · exact hrmv t h
    · exact hS.2.2.2 t h
  · intro t ht
    rcases List.mem_append.mp ht with h | h
    · exact hT.2.2 t (hdd.1.subset h)
    · exact le_trans (hS.2.2.1 t (hd2sw.subset h))
        (Upd.counter_le_initNew s solver dets)

theorem reachable_invariant (s : BYTETracker) (h : Reachable s) : Invariant s := by
  induction h with
  | new config => exact invariant_new config
  | update s solver dets _ ih => exact invariant_update s solver dets ih

/-- Claim C2: after every update of a tracker reachable from a fresh
construction, the ids in `tracked ∪ lost` are pairwise distinct and each
working set holds only tracks in its own state. -/
theorem c2_internal_sets_invariant (s : BYTETracker) (solver : SolverOracle)
    (dets : List Detection) (hs : Reachable s) :
    ((((s.update solver dets).1.tracked_stracks ++
        (s.update solver dets).1.lost_stracks).map STrack.track_id).Nodup) ∧
    (∀ t ∈ (s.update solver dets).1.tracked_stracks, t.state = TrackState.Tracked) ∧
    (∀ t ∈ (s.update solver dets).1.lost_stracks, t.state = TrackState.Lost) ∧
    (∀ t ∈ (s.update solver dets).1.removed_stracks, t.state = TrackState.Removed) := by
  have h := invariant_update s solver dets (reachable_invariant s hs)
  exact ⟨h.1, h.2.1, h.2.2.1, h.2.2.2.1⟩

/-- Witness for C2: one update of a freshly constructed default tracker under
a failing solver oracle. -/
theorem c2_witness :
    (((((BYTETracker.new TrackerConfig.default).update (fun _ _ => Except.error ())
          [⟨Rect.new 0 0 4 4, 9 / 10⟩]).1.tracked_stracks ++
        ((BYTETracker.new TrackerConfig.default).update (fun _ _ => Except.error ())
          [⟨Rect.new 0 0 4 4, 9 / 10⟩]).1.lost_stracks).map STrack.track_id).Nodup) ∧
    (∀ t ∈ ((BYTETracker.new TrackerConfig.default).update (fun _ _ => Except.error ())
        [⟨Rect.new 0 0 4 4, 9 / 10⟩]).1.tracked_stracks,
      t.state = TrackState.Tracked) ∧
    (∀ t ∈ ((BYTETracker.new TrackerConfig.default).update (fun _ _ => Except.error ())
        [⟨Rect.new 0 0 4 4, 9 / 10⟩]).1.lost_stracks,
      t.state = TrackState.Lost) ∧
    (∀ t ∈ ((BYTETracker.new TrackerConfig.default).update (fun _ _ => Except.error ())
        [⟨Rect.new 0 0 4 4, 9 / 10⟩]).1.removed_stracks,
      t.state = TrackState.Removed) :=
  c2_internal_sets_invariant (BYTETracker.new TrackerConfig.default)
    (fun _ _ => Except.error ()) [⟨Rect.new 0 0 4 4, 9 / 10⟩]
    (Reachable.new TrackerConfig.default)

/-- Claim C1: every track returned by an update of a reachable tracker is
confirmed and in state `Tracked`, and the returned ids are pairwise
distinct. -/
theorem c1_output_tracked_activated_distinct (s : BYTETracker) (solver : SolverOracle)
    (dets : List Detection) (hs : Reachable s) :
    (∀ t ∈ (s.update solver dets).2,
      t.is_activated = true ∧ t.state = TrackState.Tracked) ∧
    (((s.update solver dets).2.map STrack.track_id).Nodup) := by
  obtain ⟨hnd, htrk, hlst, hrmv, hbound⟩ := reachable_invariant s hs
  have hT := Upd.tracked1_facts s solver dets hnd hbound
  have hout : (s.update solver dets).2
      = (Upd.dedup s solver dets).1.filter fun t => t.is_activated := by
    rw [Upd.update_eq]
  have hdd := remove_duplicate_sublists (Upd.tracked1 s solver dets)
    (Upd.lost1 s solver dets)
  rw [hout]
  constructor
  · intro t ht
    refine ⟨List.of_mem_filter ht, ?_⟩
    exact hT.2.1 t (hdd.1.subset (List.mem_of_mem_filter ht))
  · have hsub : (((Upd.dedup s solver dets).1.filter fun t => t.is_activated).map
        STrack.track_id).Sublist ((Upd.tracked1 s solver dets).map STrack.track_id) :=
      ((List.filter_sublist _).trans hdd.1).map _
    exact hT.1.sublist hsub

/-- Witness for C1: one update of a freshly constructed default tracker with
the identity-assignment oracle. -/
theorem c1_witness :
    (∀ t ∈ ((BYTETracker.new TrackerConfig.default).update
        (fun n _ => Except.ok (List.range n)) []).2,
      t.is_activated = true ∧ t.state = TrackState.Tracked) ∧
    ((((BYTETracker.new TrackerConfig.default).update
        (fun n _ => Except.ok (List.range n)) []).2.map STrack.track_id).Nodup) :=
  c1_output_tracked_activated_distinct (BYTETracker.new TrackerConfig.default)
    (fun n _ => Except.ok (List.range n)) [] (Reachable.new TrackerConfig.default)
